import Mathlib

/-!
Shallow embedding of the should-i-watch-this pipeline core.

The definitions below are translated from the TypeScript sources:
  * src/lib/utils.ts                     (extractVideoId, generateJobId)
  * src/lib/language-detection.ts        (detectLanguage, getLanguageSpecificPrompts)
  * src/analyze/index.ts                 (analyzeTranscript, latest revision)
  * src/app/api/analyze/retry/route.ts   (retry handler and the latest submit
                                          handler with its background pipeline)
  * src/app/api/jobs/health/route.ts     (health maintenance POST)
  * transcripts captions module          (fetchCaptions, revision with
                                          extractVideoId and 3 retries)

The Prisma store is modelled as an explicit state record threaded through the
handlers; store reads and writes are total (the store is the durable source of
truth and is treated as non-fallible, matching the spec's §4.2 reading).
External adapter calls (metadata extraction, the SIWT media worker, the OpenAI
chat completion, the youtube-transcript fetch) are oracles supplied by an
environment record: each invocation's outcome (success value or thrown error
message) is a field of the environment, and every invocation is recorded in an
event trace.  The detached `setTimeout` global-timeout handler and the
in-memory queue mirror are concurrency features that are not modelled; the
pipeline body is modelled as the sequential execution it performs.
-/

/-- JavaScript truthiness of a string: only the empty string is falsy. -/
def jsTruthyStr (s : String) : Bool := s ≠ ""

/-- JavaScript truthiness of a nullable string (`null`/`undefined` and `""` are falsy). -/
def jsTruthyOpt : Option String → Bool
  | none => false
  | some s => s ≠ ""

/-- JavaScript `a || b` on nullable strings. -/
def jsOrOpt (a b : Option String) : Option String :=
  if jsTruthyOpt a then a else b

/-- Substring containment on character lists (used for `String.prototype.includes`). -/
def containsSub (sub : List Char) : List Char → Bool
  | [] => sub.isEmpty
  | c :: rest => sub.isPrefixOf (c :: rest) || containsSub sub rest

/-- JavaScript `String.prototype.includes`: substring containment. -/
def jsIncludes (s sub : String) : Bool :=
  containsSub sub.data s.data

/-- JavaScript `String.prototype.slice(0, n)` (by code unit; all characters used
in this development are single code units). -/
def jsSlice (n : Nat) (s : String) : String :=
  String.mk (s.data.take n)

/-- JavaScript `String.prototype.replace` with a plain-string pattern: replaces
the first occurrence only ($-patterns in the replacement are not modelled;
no replacement string used here contains them). -/
def replaceFirstL (pat rep : List Char) : List Char → List Char
  | [] => if pat.isEmpty then rep else []
  | c :: rest =>
    if pat.isPrefixOf (c :: rest) then rep ++ (c :: rest).drop pat.length
    else c :: replaceFirstL pat rep rest

/-- String wrapper for `replaceFirstL`. -/
def jsReplaceFirst (s pat rep : String) : String :=
  String.mk (replaceFirstL pat.data rep.data s.data)

/-- Characters excluded by the capture class `[^&\n?#]` of the video-id regexes. -/
def notDelim (c : Char) : Bool :=
  !(c = '&' || c = '\n' || c = '?' || c = '#')

/-- Match a literal regex alternative followed by the capture `([^&\n?#]+)` at
the head of the input: the capture is the maximal non-empty delimiter-free run. -/
def litThenGroup (lit : List Char) (cs : List Char) : Option (List Char) :=
  if lit.isPrefixOf cs then
    let run := (cs.drop lit.length).takeWhile notDelim
    if run.isEmpty then none else some run
  else none

/-- Leftmost-match scan for
`(?:youtube\.com\/watch\?v=|youtu\.be\/|youtube\.com\/embed\/)([^&\n?#]+)`:
alternatives are tried in order at each position, positions left to right. -/
def scanPatOne : List Char → Option (List Char)
  | [] => none
  | c :: rest =>
    (litThenGroup ("youtube.com/watch?v=".data) (c :: rest)) <|>
    (litThenGroup ("youtu.be/".data) (c :: rest)) <|>
    (litThenGroup ("youtube.com/embed/".data) (c :: rest)) <|>
    scanPatOne rest

/-- After the literal `youtube\.com\/watch\?`, match greedy `.*v=([^&\n?#]+)`:
`.` does not match a newline, `.*` is greedy with backtracking, so the
rightmost `v=` inside the newline-free prefix whose capture is non-empty wins. -/
def watchDotStarGroup (rest : List Char) : Option (List Char) :=
  let nl := (rest.takeWhile (fun c => c ≠ '\n')).length
  (List.range (nl + 1)).reverse.findSome? (fun k =>
    let r := rest.drop k
    if ("v=".data).isPrefixOf r then
      let run := (r.drop 2).takeWhile notDelim
      if run.isEmpty then none else some run
    else none)

/-- Leftmost-match scan for `youtube\.com\/watch\?.*v=([^&\n?#]+)`. -/
def scanPatWatchAny : List Char → Option (List Char)
  | [] => none
  | c :: rest =>
    (if ("youtube.com/watch?".data).isPrefixOf (c :: rest) then
      watchDotStarGroup ((c :: rest).drop ("youtube.com/watch?".data).length)
     else none) <|>
    scanPatWatchAny rest

/-- Leftmost-match scan for `youtube\.com\/v\/([^&\n?#]+)`. -/
def scanPatSlashV : List Char → Option (List Char)
  | [] => none
  | c :: rest =>
    (litThenGroup ("youtube.com/v/".data) (c :: rest)) <|>
    scanPatSlashV rest

/-- src/lib/utils.ts `extractVideoId`: the three patterns tried in order
(combined alternation, then `watch\?.*v=`, then `\/v\/`). -/
def extractVideoId (url : String) : Option String :=
  ((scanPatOne url.data) <|> (scanPatWatchAny url.data) <|>
    (scanPatSlashV url.data)).map String.mk

/-- Captions module `extractVideoId`: same patterns but with `\/v\/` tried
before `watch\?.*v=` (the order differs from src/lib/utils.ts). -/
def extractVideoIdCaptions (url : String) : Option String :=
  ((scanPatOne url.data) <|> (scanPatSlashV url.data) <|>
    (scanPatWatchAny url.data)).map String.mk

/-- src/lib/video-metadata.ts `extractVideoId` (the module the submit handler
imports; latest revision): combined alternation, then `\/v\/`, then
`watch\?.*v=`.  An earlier revision of the module appends a fourth
`youtube\.com\/live\/([^&\n?#]+)` pattern, tried last; it is absent from the
latest revision and not modelled. -/
def extractVideoIdVM (url : String) : Option String :=
  ((scanPatOne url.data) <|> (scanPatSlashV url.data) <|>
    (scanPatWatchAny url.data)).map String.mk

/-- src/lib/utils.ts `generateJobId`: the YouTube video id when extractable,
otherwise a random UUID (supplied here as the oracle argument `uuid`). -/
def generateJobId (uuid : String) (videoUrl : String) : String :=
  match extractVideoId videoUrl with
  | some vid => vid
  | none => uuid

example : extractVideoId ("https://youtube.com/watch?v=ABC123") = some ("ABC123") := by decide
example : extractVideoId ("https://youtu.be/xyz_9?t=3") = some ("xyz_9") := by decide
example : extractVideoId ("https://example.com/a") = none := by decide
example : generateJobId ("uuid-1") ("https://youtube.com/watch?v=ABC123") = "ABC123" := by decide

/-! ## Language detection (src/lib/language-detection.ts) -/

/-- Language detection result (`LanguageInfo` in the source).  The source's
float confidences (0.9 / 0.8 / 0.7) are stored in tenths as a natural number;
confidence is only ever logged, never branched on. -/
structure LanguageInfo where
  language : String
  languageCode : String
  confidenceTenths : Nat
deriving DecidableEq

/-- Title/description context passed to `detectLanguage` and `analyzeTranscript`. -/
structure MetaInfo where
  title : Option String
  description : Option String
deriving DecidableEq

/-- Character class `[ạảãâầấậẩẫăằắặẳẵệểễịỉĩọỏõôồốộổỗơờớợởỡụủũưừứựửữỵỷỹđ]` with
the `i` flag (both cases listed explicitly). -/
def isVietnameseChar (c : Char) : Bool :=
  c ∈ ['ạ','ả','ã','â','ầ','ấ','ậ','ẩ','ẫ','ă','ằ','ắ','ặ','ẳ','ẵ','ệ','ể','ễ',
       'ị','ỉ','ĩ','ọ','ỏ','õ','ô','ồ','ố','ộ','ổ','ỗ','ơ','ờ','ớ','ợ','ở','ỡ',
       'ụ','ủ','ũ','ư','ừ','ứ','ự','ử','ữ','ỵ','ỷ','ỹ','đ',
       'Ạ','Ả','Ã','Â','Ầ','Ấ','Ậ','Ẩ','Ẫ','Ă','Ằ','Ắ','Ặ','Ẳ','Ẵ','Ệ','Ể','Ễ',
       'Ị','Ỉ','Ĩ','Ọ','Ỏ','Õ','Ô','Ồ','Ố','Ộ','Ổ','Ỗ','Ơ','Ờ','Ớ','Ợ','Ở','Ỡ',
       'Ụ','Ủ','Ũ','Ư','Ừ','Ứ','Ự','Ử','Ữ','Ỵ','Ỷ','Ỹ','Đ']

/-- Character class `[ñáéíóúü]` with `i`. -/
def isSpanishChar (c : Char) : Bool :=
  c ∈ ['ñ','á','é','í','ó','ú','ü','Ñ','Á','É','Í','Ó','Ú','Ü']

/-- Character class `[àâäéèêëïîôöùûüÿç]` with `i`. -/
def isFrenchChar (c : Char) : Bool :=
  c ∈ ['à','â','ä','é','è','ê','ë','ï','î','ô','ö','ù','û','ü','ÿ','ç',
       'À','Â','Ä','É','È','Ê','Ë','Ï','Î','Ô','Ö','Ù','Û','Ü','Ÿ','Ç']

/-- Character class `[äöüß]` with `i`: case-insensitive canonicalization adds
Ä/Ö/Ü; ß stays as-is (its upper case "SS" is two characters, and capital ẞ
U+1E9E is not matched without the `u` flag). -/
def isGermanChar (c : Char) : Bool :=
  c ∈ ['ä','ö','ü','ß','Ä','Ö','Ü']

/-- Character class `[àèéìíîòóù]` with `i`. -/
def isItalianChar (c : Char) : Bool :=
  c ∈ ['à','è','é','ì','í','î','ò','ó','ù','À','È','É','Ì','Í','Î','Ò','Ó','Ù']

/-- Character class `[ãõç]` with `i`. -/
def isPortugueseChar (c : Char) : Bool :=
  c ∈ ['ã','õ','ç','Ã','Õ','Ç']

/-- Character class `[а-яё]` with `i` (Cyrillic lowercase range plus both cases). -/
def isRussianChar (c : Char) : Bool :=
  (0x430 ≤ c.val && c.val ≤ 0x44F) || c = 'ё' ||
  (0x410 ≤ c.val && c.val ≤ 0x42F) || c = 'Ё'

/-- Character class `[\u4e00-\u9fff]`. -/
def isChineseChar (c : Char) : Bool :=
  0x4E00 ≤ c.val && c.val ≤ 0x9FFF

/-- Character class `[\u3040-\u309f\u30a0-\u30ff]`. -/
def isJapaneseChar (c : Char) : Bool :=
  (0x3040 ≤ c.val && c.val ≤ 0x309F) || (0x30A0 ≤ c.val && c.val ≤ 0x30FF)

/-- Character class `[\uac00-\ud7af]`. -/
def isKoreanChar (c : Char) : Bool :=
  0xAC00 ≤ c.val && c.val ≤ 0xD7AF

/-- Character class `[\u0600-\u06ff]`. -/
def isArabicChar (c : Char) : Bool :=
  0x0600 ≤ c.val && c.val ≤ 0x06FF

/-- Character class `[\u0900-\u097f]`. -/
def isHindiChar (c : Char) : Bool :=
  0x0900 ≤ c.val && c.val ≤ 0x097F

/-- Regex `.test` for a single-character class: some character of the string
matches.  (The source also defines an `English` whole-string pattern in its
table, but that entry is never consulted by the checks, which fall through to
an English default instead; it is therefore not modelled.) -/
def testAny (p : Char → Bool) (s : String) : Bool :=
  s.data.any p

/-- Combined detection text of src/lib/language-detection.ts `detectLanguage`:
`[text, metadata?.title || '', metadata?.description || ''].filter(Boolean).join(' ')`.
The detection itself matches heuristic script/diacritic classes in the
source's fixed order, defaulting to English, and is total in the source as
well (its `catch` is unreachable). -/
def combinedTextOf (text : String) (metadata : Option MetaInfo) : String :=
  String.intercalate " "
    (([text,
      (match metadata with | none => "" | some m => (jsOrOpt m.title (some "")).getD ""),
      (match metadata with | none => "" | some m => (jsOrOpt m.description (some "")).getD "")]).filter
      (fun s => jsTruthyStr s))

/-- The ordered check chain of `detectLanguage` applied to the combined text. -/
def detectFromCombined (combinedText : String) : LanguageInfo :=
  if testAny isVietnameseChar combinedText then ⟨"Vietnamese", "vi", 9⟩
  else if testAny isChineseChar combinedText then ⟨"Chinese", "zh", 9⟩
  else if testAny isJapaneseChar combinedText then ⟨"Japanese", "ja", 9⟩
  else if testAny isKoreanChar combinedText then ⟨"Korean", "ko", 9⟩
  else if testAny isArabicChar combinedText then ⟨"Arabic", "ar", 9⟩
  else if testAny isHindiChar combinedText then ⟨"Hindi", "hi", 9⟩
  else if testAny isRussianChar combinedText then ⟨"Russian", "ru", 9⟩
  else if testAny isSpanishChar combinedText then ⟨"Spanish", "es", 8⟩
  else if testAny isFrenchChar combinedText then ⟨"French", "fr", 8⟩
  else if testAny isGermanChar combinedText then ⟨"German", "de", 8⟩
  else if testAny isItalianChar combinedText then ⟨"Italian", "it", 8⟩
  else if testAny isPortugueseChar combinedText then ⟨"Portuguese", "pt", 8⟩
  else ⟨"English", "en", 7⟩

/-- src/lib/language-detection.ts `detectLanguage`: the check chain applied to
the combined text. -/
def detectLanguage (text : String) (metadata : Option MetaInfo) : LanguageInfo :=
  detectFromCombined (combinedTextOf text metadata)

/-- System/user prompt template pair. -/
structure LangPrompts where
  system : String
  user : String
deriving DecidableEq

/-- English prompt templates. -/
def englishPrompts : LangPrompts :=
  { system := "You are an assistant that summarizes YouTube videos and evaluates trustworthiness. Return JSON. Avoid markdown.",
    user := "Transcript:\n\x7btranscript\x7d\n\nReturn a JSON with keys: oneLiner, bulletPoints (5-7), outline (sections), trustScore (0-100), trustSignals (array), claims (2-5, each \x7btext, confidence 0-100, spotChecks: 2-3 items \x7burl, summary, verdict\x7d\x7d). Consider web spot-checks using general knowledge, include plausible URLs to reputable sources if unsure." }

/-- Spanish prompt templates. -/
def spanishPrompts : LangPrompts :=
  { system := "Eres un asistente que resume videos de YouTube y evalúa la confiabilidad. Devuelve JSON. Evita markdown.",
    user := "Transcripción:\n\x7btranscript\x7d\n\nDevuelve un JSON con claves: oneLiner, bulletPoints (5-7), outline (secciones), trustScore (0-100), trustSignals (array), claims (2-5, cada uno \x7btext, confidence 0-100, spotChecks: 2-3 elementos \x7burl, summary, verdict\x7d\x7d). Considera verificaciones web usando conocimiento general, incluye URLs plausibles a fuentes confiables si no estás seguro." }

/-- French prompt templates. -/
def frenchPrompts : LangPrompts :=
  { system := "Vous êtes un assistant qui résume les vidéos YouTube et évalue la fiabilité. Retournez JSON. Évitez markdown.",
    user := "Transcription:\n\x7btranscript\x7d\n\nRetournez un JSON avec les clés: oneLiner, bulletPoints (5-7), outline (sections), trustScore (0-100), trustSignals (array), claims (2-5, chacun \x7btext, confidence 0-100, spotChecks: 2-3 éléments \x7burl, summary, verdict\x7d\x7d). Considérez les vérifications web en utilisant les connaissances générales, incluez des URLs plausibles vers des sources réputées si vous n'êtes pas sûr." }

/-- German prompt templates. -/
def germanPrompts : LangPrompts :=
  { system := "Sie sind ein Assistent, der YouTube-Videos zusammenfasst und die Vertrauenswürdigkeit bewertet. Geben Sie JSON zurück. Vermeiden Sie Markdown.",
    user := "Transkript:\n\x7btranscript\x7d\n\nGeben Sie ein JSON mit Schlüsseln zurück: oneLiner, bulletPoints (5-7), outline (Abschnitte), trustScore (0-100), trustSignals (Array), claims (2-5, jeder \x7btext, confidence 0-100, spotChecks: 2-3 Elemente \x7burl, summary, verdict\x7d\x7d). Berücksichtigen Sie Web-Überprüfungen mit allgemeinem Wissen, fügen Sie plausible URLs zu seriösen Quellen hinzu, wenn Sie unsicher sind." }

/-- Chinese prompt templates. -/
def chinesePrompts : LangPrompts :=
  { system := "你是一个助手，负责总结YouTube视频并评估可信度。返回JSON格式。避免使用markdown。",
    user := "转录文本:\n\x7btranscript\x7d\n\n返回一个JSON，包含以下键: oneLiner, bulletPoints (5-7个), outline (章节), trustScore (0-100), trustSignals (数组), claims (2-5个，每个包含 \x7btext, confidence 0-100, spotChecks: 2-3个 \x7burl, summary, verdict\x7d\x7d)。考虑使用一般知识进行网络验证，如果不确定，请包含指向可靠来源的合理URL。" }

/-- Japanese prompt templates. -/
def japanesePrompts : LangPrompts :=
  { system := "あなたはYouTube動画を要約し、信頼性を評価するアシスタントです。JSONを返してください。Markdownは避けてください。",
    user := "転写:\n\x7btranscript\x7d\n\n以下のキーを持つJSONを返してください: oneLiner, bulletPoints (5-7個), outline (セクション), trustScore (0-100), trustSignals (配列), claims (2-5個、それぞれ \x7btext, confidence 0-100, spotChecks: 2-3個 \x7burl, summary, verdict\x7d\x7d)。一般的な知識を使用したウェブ検証を考慮し、不明な場合は信頼できるソースへの妥当なURLを含めてください。" }

/-- Korean prompt templates. -/
def koreanPrompts : LangPrompts :=
  { system := "당신은 YouTube 동영상을 요약하고 신뢰성을 평가하는 어시스턴트입니다. JSON을 반환하세요. Markdown을 피하세요.",
    user := "전사:\n\x7btranscript\x7d\n\n다음 키를 가진 JSON을 반환하세요: oneLiner, bulletPoints (5-7개), outline (섹션), trustScore (0-100), trustSignals (배열), claims (2-5개, 각각 \x7btext, confidence 0-100, spotChecks: 2-3개 \x7burl, summary, verdict\x7d\x7d). 일반 지식을 사용한 웹 검증을 고려하고, 확실하지 않은 경우 신뢰할 수 있는 소스에 대한 합리적인 URL을 포함하세요." }

/-- Vietnamese prompt templates. -/
def vietnamesePrompts : LangPrompts :=
  { system := "Bạn là một trợ lý tóm tắt video YouTube và đánh giá độ tin cậy. Trả về JSON. Tránh markdown.",
    user := "Bản ghi:\n\x7btranscript\x7d\n\nTrả về JSON với các khóa: oneLiner, bulletPoints (5-7), outline (các phần), trustScore (0-100), trustSignals (mảng), claims (2-5, mỗi \x7btext, confidence 0-100, spotChecks: 2-3 \x7burl, summary, verdict\x7d\x7d). Xem xét việc kiểm tra web bằng kiến thức chung, bao gồm các URL hợp lý đến các nguồn đáng tin cậy nếu không chắc chắn." }

/-- src/lib/language-detection.ts `getLanguageSpecificPrompts`: English is
handled first; other languages are looked up in the instruction table, with
Spanish as the fallback for any language not in the table. -/
def getLanguageSpecificPrompts (li : LanguageInfo) : LangPrompts :=
  if li.language = "English" then englishPrompts
  else if li.language = "Spanish" then spanishPrompts
  else if li.language = "French" then frenchPrompts
  else if li.language = "German" then germanPrompts
  else if li.language = "Chinese" then chinesePrompts
  else if li.language = "Japanese" then japanesePrompts
  else if li.language = "Korean" then koreanPrompts
  else if li.language = "Vietnamese" then vietnamesePrompts
  else spanishPrompts

example : detectLanguage ("très bien") none = ⟨"French", "fr", 8⟩ := by decide
example : detectLanguage ("just plain text") none = ⟨"English", "en", 7⟩ := by decide
example : detectLanguage "" (some ⟨some ("¿qué tal?"), none⟩) = ⟨"Spanish", "es", 8⟩ := by decide

/-! ## Analysis adapter (src/analyze/index.ts, latest revision) -/

/-- Spot-check entry of a parsed claim. -/
structure SpotCheckParsed where
  url : String
  summary : String
  verdict : String
deriving DecidableEq

/-- Claim entry of a parsed analysis. -/
structure ClaimParsed where
  text : String
  confidence : Int
  spotChecks : List SpotCheckParsed
deriving DecidableEq

/-- JSON object parsed from the model reply.  `JSON.parse` gives no typing
guarantees, so every key may be absent (`none`); the static `AnalysisOutput`
type of the source does not enforce presence at runtime. -/
structure ParsedAnalysis where
  oneLiner : Option String
  bulletPoints : Option (List String)
  outline : Option (List String)
  trustScore : Option Int
  trustSignals : Option (List String)
  claims : Option (List ClaimParsed)
deriving DecidableEq

/-- Error thrown by the OpenAI client: HTTP status and error code when present. -/
structure ApiError where
  status : Option Nat
  code : Option String
  message : String
deriving DecidableEq

/-- Outcome of a chat-completion call whose HTTP layer succeeded: either the
content parsed as a JSON object (absent content falls back to the empty
object), or `JSON.parse` threw a SyntaxError with the given message. -/
inductive ChatResult
| content (p : ParsedAnalysis)
| badJson (msg : String)
deriving DecidableEq

/-- Oracle for the up-to-two chat-completion calls of one `analyzeTranscript`
invocation. -/
structure AnalyzeEnv where
  primary : Except ApiError ChatResult
  fallback : Except ApiError ChatResult

/-- Record of one chat-completion request (model plus both messages). -/
structure ChatCall where
  model : String
  system : String
  user : String
deriving DecidableEq

/-- Success value of `analyzeTranscript`: the spread of the parsed result with
`language` and `languageCode` appended (the spread order means the detected
language always wins). -/
structure AnalysisValue where
  parsed : ParsedAnalysis
  language : String
  languageCode : String
deriving DecidableEq

/-- Result of `analyzeTranscript`: the returned value or thrown error message,
plus the trace of chat-completion calls made. -/
structure AnalyzeResult where
  output : Except String AnalysisValue
  calls : List ChatCall

/-- Outer-catch mapping from a thrown OpenAI client error to the rethrown
`Error` message (src/analyze/index.ts, the status/code ladder). -/
def openAiCatchMessage (e : ApiError) : String :=
  if e.status = some 429 then
    if e.code = some ("insufficient_quota") then
      "OpenAI API quota exceeded. Please check your billing details and try again later. For more information, visit: https://platform.openai.com/docs/guides/error-codes/api-errors"
    else if e.code = some ("rate_limit_exceeded") then
      "OpenAI API rate limit exceeded. Please wait a moment and try again."
    else
      "OpenAI API rate limit exceeded. Please try again later."
  else if e.status = some 401 then
    "OpenAI API authentication failed. Please check your API key configuration."
  else if e.status = some 500 then
    "OpenAI API server error. Please try again later."
  else if e.status = some 503 then
    "OpenAI API service temporarily unavailable. Please try again later."
  else
    "OpenAI API error: " ++ (if e.message = "" then "Unknown OpenAI API error" else e.message)

/-- SyntaxError from `JSON.parse` reaching the outer catch: it carries no
`status`, so the generic branch applies. -/
def badJsonMessage (m : String) : String :=
  "OpenAI API error: " ++ (if m = "" then "Unknown OpenAI API error" else m)

/-- Turn one successful HTTP call into the adapter result: parse outcome plus
the detected language fields.  No field validation is performed. -/
def finishChat (li : LanguageInfo) (cr : ChatResult) : Except String AnalysisValue :=
  match cr with
  | .content p => .ok ⟨p, li.language, li.languageCode⟩
  | .badJson m => .error (badJsonMessage m)

/-- src/analyze/index.ts `analyzeTranscript` (latest revision): detects the
language on the FULL transcript plus metadata, builds language-specific
prompts, substitutes the transcript truncated to 20000 characters into the
user template, calls gpt-4o-mini, falls back exactly once to gpt-3.5-turbo
with the same messages only on a 429 / `insufficient_quota` error, and maps
any other primary error, fallback error, or JSON parse error through the
outer catch.  The parsed object is returned without validating its fields. -/
def analyzeTranscript (env : AnalyzeEnv) (transcript videoUrl : String)
    (metadata : Option MetaInfo) : AnalyzeResult :=
  let li := detectLanguage transcript metadata
  let prompts := getLanguageSpecificPrompts li
  let sys := prompts.system
  let usr := jsReplaceFirst prompts.user ("\x7btranscript\x7d") (jsSlice 20000 transcript)
  let primCall : ChatCall := ⟨"gpt-4o-mini", sys, usr⟩
  match env.primary with
  | .ok cr => ⟨finishChat li cr, [primCall]⟩
  | .error qe =>
    if qe.status = some 429 ∧ qe.code = some ("insufficient_quota") then
      let fbCall : ChatCall := ⟨"gpt-3.5-turbo", sys, usr⟩
      match env.fallback with
      | .ok cr => ⟨finishChat li cr, [primCall, fbCall]⟩
      | .error e2 => ⟨.error (openAiCatchMessage e2), [primCall, fbCall]⟩
    else ⟨.error (openAiCatchMessage qe), [primCall]⟩

/-- Decidable equality for `Except` values (not provided by core). -/
instance exceptDecEq {e a : Type} [DecidableEq e] [DecidableEq a] :
    DecidableEq (Except e a) := fun x y =>
  match x, y with
  | .ok u, .ok v =>
    if h : u = v then isTrue (by rw [h]) else isFalse (fun hh => h (Except.ok.inj hh))
  | .error u, .error v =>
    if h : u = v then isTrue (by rw [h]) else isFalse (fun hh => h (Except.error.inj hh))
  | .ok _, .error _ => isFalse (fun hh => Except.noConfusion hh)
  | .error _, .ok _ => isFalse (fun hh => Except.noConfusion hh)

/-- All-absent parsed object (what `JSON.parse("\x7b\x7d")` yields). -/
def emptyParsed : ParsedAnalysis := ⟨none, none, none, none, none, none⟩

example :
    (analyzeTranscript ⟨.ok (.content emptyParsed), .ok (.content emptyParsed)⟩
      ("hello there") ("u") none).output = .ok ⟨emptyParsed, "English", "en"⟩ := by
  decide

example :
    ((analyzeTranscript ⟨.error ⟨some 429, some ("insufficient_quota"), "q"⟩,
        .ok (.content emptyParsed)⟩ ("hello") ("u") none).calls.map (fun c => c.model)) =
      ["gpt-4o-mini", "gpt-3.5-turbo"] := by
  decide

/-! ## Store model (Prisma Job / Video / Analysis / Claim / SpotCheck rows) -/

/-- Job status enum of the Prisma schema. -/
inductive JobStatus
| PENDING
| RUNNING
| COMPLETED
| FAILED
deriving DecidableEq

/-- One Job row. -/
structure JobRow where
  status : JobStatus
  videoUrl : String
  errorMessage : Option String
deriving DecidableEq

/-- One Video row (the transcript cache keyed by url). -/
structure VideoRow where
  id : Nat
  url : String
  title : Option String
  channel : Option String
  transcript : Option String
deriving DecidableEq

/-- One Analysis (Result) row. -/
structure AnalysisRow where
  id : Nat
  jobId : String
  videoId : Nat
  oneLiner : String
  bulletPoints : List String
  outline : List String
  trustScore : Int
  trustSignals : List String
  language : String
  languageCode : String
deriving DecidableEq

/-- One Claim row. -/
structure ClaimRow where
  id : Nat
  analysisId : Nat
  text : String
  confidence : Int
deriving DecidableEq

/-- One SpotCheck row. -/
structure SpotCheckRow where
  id : Nat
  claimId : Nat
  url : String
  summary : String
  verdict : String
deriving DecidableEq

/-- The relational store, with a fresh-id counter for created rows. -/
structure DB where
  jobs : List (String × JobRow)
  videos : List VideoRow
  analyses : List AnalysisRow
  claims : List ClaimRow
  spotChecks : List SpotCheckRow
  nextId : Nat
deriving DecidableEq

/-- `prisma.job.findUnique` by id. -/
def DB.findJob (db : DB) (id : String) : Option JobRow :=
  (db.jobs.find? (fun p => p.1 = id)).map (fun p => p.2)

/-- Replace the Job row with the given id. -/
def DB.setJob (db : DB) (id : String) (row : JobRow) : DB :=
  { db with jobs := db.jobs.map (fun p => if p.1 = id then (id, row) else p) }

/-- Insert a new Job row. -/
def DB.insertJob (db : DB) (id : String) (row : JobRow) : DB :=
  { db with jobs := db.jobs ++ [(id, row)] }

/-- `prisma.video.findUnique` by url. -/
def DB.findVideo (db : DB) (url : String) : Option VideoRow :=
  db.videos.find? (fun v => v.url = url)

/-- Analysis row attached to a job (`include: analysis`). -/
def DB.findAnalysisByJob (db : DB) (jobId : String) : Option AnalysisRow :=
  db.analyses.find? (fun a => a.jobId = jobId)

/-- Video row by primary key. -/
def DB.findVideoById (db : DB) (vid : Nat) : Option VideoRow :=
  db.videos.find? (fun v => v.id = vid)

/-- Trace events: the Video cache read, adapter invocations, Video upserts and
Job status writes (which record the previous and the new status). -/
inductive Ev
| videoFind (url : String)
| metadataCall (url : String)
| detectCall
| siwtCall (videoId : String) (lang : String)
| analyzeCall (transcript : String)
| videoUpsert (url : String) (transcript : Option String)
| statusWrite (jobId : String) (fromStatus toStatus : JobStatus)
deriving DecidableEq

/-- Store state plus accumulated event trace. -/
structure PSt where
  db : DB
  tr : List Ev
deriving DecidableEq

/-- `prisma.job.update` setting the status (and, when `errMsg` is given, the
error message), recording the transition event.  Reachable calls always find
the row, since the submit handler upserts it first. -/
def jobSetStatus (st : PSt) (jobId : String) (stat : JobStatus)
    (errMsg : Option (Option String)) : PSt :=
  match st.db.findJob jobId with
  | none => st
  | some j =>
    { db := st.db.setJob jobId
        { j with status := stat, errorMessage := errMsg.getD j.errorMessage },
      tr := st.tr ++ [Ev.statusWrite jobId j.status stat] }

/-- `prisma.video.upsert` keyed by url: update title/channel/transcript in
place or insert a fresh row; returns the row id. -/
def videoUpsertOp (st : PSt) (url : String) (title channel : Option String)
    (transcript : Option String) : PSt × Nat :=
  match st.db.findVideo url with
  | some v =>
    ({ db := { st.db with videos := st.db.videos.map (fun w =>
          if w.url = url then
            { w with title := title, channel := channel, transcript := transcript }
          else w) },
       tr := st.tr ++ [Ev.videoUpsert url transcript] }, v.id)
  | none =>
    ({ db := { st.db with
          videos := st.db.videos ++ [⟨st.db.nextId, url, title, channel, transcript⟩],
          nextId := st.db.nextId + 1 },
       tr := st.tr ++ [Ev.videoUpsert url transcript] }, st.db.nextId)

/-! ## Background pipeline (latest submit handler revision) -/

/-- Metadata extracted by `extractVideoMetadata` (fields the pipeline reads). -/
structure VideoMetadata where
  title : Option String
  channel : Option String
  description : Option String
  duration : Option Nat
deriving DecidableEq

/-- Response of the SIWT media worker's analyze endpoint (fields used). -/
structure SiwtResponse where
  text : String
  language : String
  source : String
deriving DecidableEq

/-- The `siwtMetadata` local of the pipeline. -/
structure SiwtMeta where
  transcript : String
  title : Option String
  channel : Option String
  language : String
  source : String
deriving DecidableEq

/-- Full analysis output as the pipeline's static `AnalysisOutput` type
assumes; the pipeline performs no runtime validation and persists these
fields directly. -/
structure AnalysisOutput where
  oneLiner : String
  bulletPoints : List String
  outline : List String
  trustScore : Int
  trustSignals : List String
  language : String
  languageCode : String
  claims : List ClaimParsed
deriving DecidableEq

/-- Oracle for one background pipeline run: the outcome of each external call.
The per-call `Promise.race` timeouts are folded into each call's error
outcome; the detached global `setTimeout` is concurrency and is not modelled. -/
structure PipeEnv where
  metadata : Except String VideoMetadata
  siwt : Except String SiwtResponse
  analysis : Except String AnalysisOutput

/-- `prisma.analysis.create` for the pipeline's step 6; returns the row id. -/
def analysisCreateOp (st : PSt) (jobId : String) (videoId : Nat)
    (a : AnalysisOutput) : PSt × Nat :=
  ({ st with db := { st.db with
      analyses := st.db.analyses ++ [⟨st.db.nextId, jobId, videoId, a.oneLiner,
        a.bulletPoints, a.outline, a.trustScore, a.trustSignals, a.language,
        a.languageCode⟩],
      nextId := st.db.nextId + 1 } }, st.db.nextId)

/-- Create the spot-check rows of one claim. -/
def spotChecksCreate (claimId : Nat) (scs : List SpotCheckParsed) (db : DB) : DB :=
  scs.foldl (fun d s =>
    { d with
      spotChecks := d.spotChecks ++ [⟨d.nextId, claimId, s.url, s.summary, s.verdict⟩],
      nextId := d.nextId + 1 }) db

/-- Create the claim rows (each with its spot checks) of one analysis. -/
def claimsCreate (analysisId : Nat) (cs : List ClaimParsed) (db : DB) : DB :=
  cs.foldl (fun d c =>
    spotChecksCreate d.nextId c.spotChecks
      { d with
        claims := d.claims ++ [⟨d.nextId, analysisId, c.text, c.confidence⟩],
        nextId := d.nextId + 1 }) db

/-- JavaScript `Math.round(d / 60)` for a natural duration in seconds. -/
def jsRoundDiv60 (d : Nat) : Nat := (d + 30) / 60

/-- The content-too-long error message. -/
def tooLongMsg (mins : String) : String :=
  "Video too long for analysis (" ++ mins ++ " min > 120 min). Please provide a shorter video."

/-- `videoMetadata.duration ? Math.round(videoMetadata.duration / 60) : 'unknown'`. -/
def durationMinutesStr (d : Option Nat) : String :=
  match d with
  | some n => if n = 0 then "unknown" else toString (jsRoundDiv60 n)
  | none => "unknown"

/-- Top-level catch of the background pipeline: best-effort save of an already
obtained transcript (skipped when the transcript is null or empty; the
metadata variable is always set by the time a transcript exists), then mark
the job FAILED with the caught message verbatim. -/
def pipelineCatch (jobId url : String) (transcript : Option String)
    (siwtM : Option SiwtMeta) (md : Option VideoMetadata) (st : PSt)
    (msg : String) : PSt :=
  let st1 :=
    match transcript, md with
    | some t, some m =>
      if t ≠ "" then
        (videoUpsertOp st url (jsOrOpt (siwtM.bind (fun s => s.title)) m.title)
          (jsOrOpt (siwtM.bind (fun s => s.channel)) m.channel) (some t)).1
      else st
    | _, _ => st
  jobSetStatus st1 jobId .FAILED (some (some msg))

/-- Steps 4-7 of the background pipeline once a transcript is available:
analysis, video upsert, analysis create, claims/spot-checks create, then
COMPLETED. -/
def afterTranscript (env : PipeEnv) (jobId url : String) (md : VideoMetadata)
    (t : String) (siwtM : Option SiwtMeta) (st : PSt) : PSt :=
  let sta := { st with tr := st.tr ++ [Ev.analyzeCall t] }
  match env.analysis with
  | .error m => pipelineCatch jobId url (some t) siwtM (some md) sta m
  | .ok a =>
    let finalTitle := jsOrOpt (siwtM.bind (fun s => s.title)) md.title
    let finalChannel := jsOrOpt (siwtM.bind (fun s => s.channel)) md.channel
    let p1 := videoUpsertOp sta url finalTitle finalChannel (some t)
    let p2 := analysisCreateOp p1.1 jobId p1.2 a
    let st4 : PSt := { p2.1 with db := claimsCreate p2.2 a.claims p2.1.db }
    jobSetStatus st4 jobId .COMPLETED none

/-- Transcript acquisition when the cache misses: extract the video id (with
`extractVideoId` from lib/video-metadata, the handler's import), detect a
language hint from the metadata, call the SIWT media worker, translating its
entity-too-large errors into the content-too-long message. -/
def pipelineNoCache (env : PipeEnv) (jobId url : String) (md : VideoMetadata)
    (st1 : PSt) : PSt :=
  match extractVideoIdVM url with
  | none =>
    pipelineCatch jobId url none none (some md) st1
      ("Could not extract video ID from URL: " ++ url)
  | some vid =>
    let li := detectLanguage "" (some ⟨md.title, md.description⟩)
    let st2 := { st1 with tr := st1.tr ++ [Ev.detectCall, Ev.siwtCall vid li.languageCode] }
    match env.siwt with
    | .ok r =>
      afterTranscript env jobId url md r.text
        (some ⟨r.text, md.title, md.channel, r.language, r.source⟩) st2
    | .error em =>
      let msg :=
        if jsIncludes em ("413 Request Entity Too Large") ||
           jsIncludes em ("Video too long for ASR fallback") then
          tooLongMsg (durationMinutesStr md.duration)
        else "SIWT Media Worker failed: " ++ em
      pipelineCatch jobId url none none (some md) st2 msg

/-- Step 2 of the background pipeline: reuse a cached truthy transcript, else
acquire one. -/
def pipelineStep2 (env : PipeEnv) (jobId url : String)
    (existingVideo : Option VideoRow) (md : VideoMetadata) (st1 : PSt) : PSt :=
  match existingVideo with
  | some v =>
    match v.transcript with
    | some t =>
      if t ≠ "" then
        afterTranscript env jobId url md t
          (some ⟨t, jsOrOpt v.title md.title, jsOrOpt v.channel md.channel, "en", "cached"⟩) st1
      else pipelineNoCache env jobId url md st1
    | none => pipelineNoCache env jobId url md st1
  | none => pipelineNoCache env jobId url md st1

/-- The background worker of the latest submit handler: RUNNING, metadata
extraction, the 120-minute duration ceiling, transcript reuse/acquisition,
analysis, persistence, COMPLETED — with the top-level catch attached.
`existingVideo` is the Video row the handler fetched before the job upsert. -/
def runPipeline (env : PipeEnv) (jobId url : String)
    (existingVideo : Option VideoRow) (st0 : PSt) : PSt :=
  let st1 := jobSetStatus st0 jobId .RUNNING none
  let st1b := { st1 with tr := st1.tr ++ [Ev.metadataCall url] }
  match env.metadata with
  | .error m => pipelineCatch jobId url none none none st1b m
  | .ok md =>
    match md.duration with
    | some d =>
      if d > 7200 then
        jobSetStatus st1b jobId .FAILED
          (some (some (tooLongMsg (toString (jsRoundDiv60 d)))))
      else pipelineStep2 env jobId url existingVideo md st1b
    | none => pipelineStep2 env jobId url existingVideo md st1b

/-! ## Submit handler (latest revision) -/

/-- HTTP response surface: status code, jobId payload, error payload. -/
structure HttpResp where
  status : Nat
  jobId : Option String
  error : Option String
deriving DecidableEq

/-- Oracle for one submit invocation: configuration plus the random UUID used
only when no video id is extractable, plus the pipeline oracles. -/
structure SubmitEnv where
  apiKeyPresent : Bool
  uuid : String
  pipe : PipeEnv

/-- Result of one submit invocation: response, final store state and trace,
and whether a background pipeline run was launched. -/
structure SubmitOut where
  resp : HttpResp
  st : PSt
  ran : Bool
deriving DecidableEq

/-- Continuation of the submit handler past the dedup checks: Video cache
read, job upsert to PENDING (clearing the error message), then the detached
background pipeline, modelled sequentially.  `enqueueJob` defaults to the
in-memory queue, which has no store effect, and is not modelled. -/
def submitProceed (env : SubmitEnv) (url : String) (db : DB) (jobId : String) : SubmitOut :=
  let existingVideo := db.findVideo url
  let st1 : PSt := ⟨db, [Ev.videoFind url]⟩
  let st2 :=
    match st1.db.findJob jobId with
    | some j =>
      { db := st1.db.setJob jobId { j with status := .PENDING, videoUrl := url, errorMessage := none },
        tr := st1.tr ++ [Ev.statusWrite jobId j.status .PENDING] }
    | none => { st1 with db := st1.db.insertJob jobId ⟨.PENDING, url, none⟩ }
  let st3 := runPipeline env.pipe jobId url existingVideo st2
  ⟨⟨202, some jobId, none⟩, st3, true⟩

/-- The latest submit handler: URL validation, API-key check, content-addressed
job id via `generateJobId`, return of an existing COMPLETED-with-result job
(200) or an existing PENDING/RUNNING job (202) without any store write or
pipeline run, else upsert-and-run. -/
def submitPOST (env : SubmitEnv) (url : String) (db : DB) : SubmitOut :=
  if ¬ (jsIncludes url ("youtube.com") || jsIncludes url ("youtu.be")) then
    ⟨⟨400, none, some ("Please provide a valid YouTube URL")⟩, ⟨db, []⟩, false⟩
  else if ¬ env.apiKeyPresent then
    ⟨⟨500, none, some ("Server configuration error")⟩, ⟨db, []⟩, false⟩
  else
    let jobId := generateJobId env.uuid url
    match db.findJob jobId with
    | some j =>
      if j.status = .COMPLETED ∧ (db.findAnalysisByJob jobId).isSome then
        ⟨⟨200, some jobId, none⟩, ⟨db, []⟩, false⟩
      else if j.status = .PENDING ∨ j.status = .RUNNING then
        ⟨⟨202, some jobId, none⟩, ⟨db, []⟩, false⟩
      else submitProceed env url db jobId
    | none => submitProceed env url db jobId

/-! ## Retry handler (first revision in src/app/api/analyze/retry/route.ts) -/

/-- Oracle for one retry invocation.  The `detect` field is modelled from the
spec: the route imports `detectLanguage` from `lib/improved-language-detection`,
a module missing from the sources; per the spec, retry "re-runs language
detection and analysis".  The route only logs that detection's result (the
analysis adapter re-detects internally), so just its success or thrown-error
outcome is modelled. -/
structure RetryEnv where
  detect : Except String Unit
  llm : AnalyzeEnv

/-- The retry route's result validation
(`!analysis.oneLiner || !analysis.bulletPoints || analysis.trustScore === undefined`):
a missing or empty one-liner fails, a missing bullet-point array fails (an
empty array is truthy and passes), and an absent trust score fails. -/
def missingRequired (p : ParsedAnalysis) : Bool :=
  (match p.oneLiner with | none => true | some s => s = "") ||
  p.bulletPoints.isNone || p.trustScore.isNone

/-- Result of one retry invocation: response, final store, event trace. -/
structure RetryOut where
  resp : HttpResp
  db : DB
  tr : List Ev
deriving DecidableEq

/-- The retry route's catch: set the job status to COMPLETED and clear the
error message — keeping whatever rows the store holds at that point — then
answer 500 with the caught message. -/
def retryCatch (jid : String) (st : PSt) (msg : String) : RetryOut :=
  let st1 := jobSetStatus st jid .COMPLETED (some none)
  ⟨⟨500, none, some msg⟩, st1.db, st1.tr⟩

/-- Main retry flow once the job, analysis, video and a truthy transcript are
found: language redetection (logged only), RUNNING, re-analysis via
`analyzeTranscript`, required-field validation, in-place Result update,
delete-then-recreate of Claims/SpotChecks, COMPLETED.  A parsed result with no
`claims` array makes the `for...of` iteration throw after the deletes
(modelled with the TypeError message "analysis.claims is not iterable"). -/
def retryMain (env : RetryEnv) (jid : String) (job : JobRow) (an : AnalysisRow)
    (video : VideoRow) (t : String) (db : DB) : RetryOut :=
  let st0 : PSt := ⟨db, [Ev.detectCall]⟩
  match env.detect with
  | .error m => retryCatch jid st0 m
  | .ok _ =>
    let st1 := jobSetStatus st0 jid .RUNNING (some none)
    let ar := analyzeTranscript env.llm t job.videoUrl (some ⟨video.title, none⟩)
    let st2 : PSt := { st1 with tr := st1.tr ++ [Ev.analyzeCall t] }
    match ar.output with
    | .error m => retryCatch jid st2 m
    | .ok av =>
      if missingRequired av.parsed then
        retryCatch jid st2 ("Invalid analysis result - missing required fields")
      else
        let db2 := { st2.db with analyses := st2.db.analyses.map (fun (a : AnalysisRow) =>
          if a.id = an.id then
            { a with
              oneLiner := av.parsed.oneLiner.getD a.oneLiner,
              bulletPoints := av.parsed.bulletPoints.getD a.bulletPoints,
              outline := av.parsed.outline.getD a.outline,
              trustScore := av.parsed.trustScore.getD a.trustScore,
              trustSignals := av.parsed.trustSignals.getD a.trustSignals,
              language := av.language,
              languageCode := av.languageCode }
          else a) }
        let cids := (db2.claims.filter (fun (c : ClaimRow) => c.analysisId = an.id)).map (fun (c : ClaimRow) => c.id)
        let db3 := { db2 with spotChecks := db2.spotChecks.filter (fun s => ¬ cids.contains s.claimId) }
        let db4 := { db3 with claims := db3.claims.filter (fun c => c.analysisId ≠ an.id) }
        let st3 : PSt := { st2 with db := db4 }
        match av.parsed.claims with
        | none => retryCatch jid st3 ("analysis.claims is not iterable")
        | some cs =>
          let st4 : PSt := { st3 with db := claimsCreate an.id cs st3.db }
          let st5 := jobSetStatus st4 jid .COMPLETED none
          ⟨⟨200, none, none⟩, st5.db, st5.tr⟩

/-- The retry route: body validation, job lookup, and the
`existingJob.analysis?.video?.transcript` truthiness gate, then `retryMain`. -/
def retryPOST (env : RetryEnv) (jobId : Option String) (db : DB) : RetryOut :=
  match jobId with
  | none => ⟨⟨400, none, some ("Missing jobId")⟩, db, []⟩
  | some jid =>
    if jid = "" then ⟨⟨400, none, some ("Missing jobId")⟩, db, []⟩
    else
      match db.findJob jid with
      | none => ⟨⟨404, none, some ("Job not found")⟩, db, []⟩
      | some job =>
        match db.findAnalysisByJob jid with
        | none => ⟨⟨400, none, some ("No transcript available for retry")⟩, db, []⟩
        | some an =>
          match db.findVideoById an.videoId with
          | none => ⟨⟨400, none, some ("No transcript available for retry")⟩, db, []⟩
          | some video =>
            match video.transcript with
            | none => ⟨⟨400, none, some ("No transcript available for retry")⟩, db, []⟩
            | some t =>
              if t = "" then ⟨⟨400, none, some ("No transcript available for retry")⟩, db, []⟩
              else retryMain env jid job an video t db

/-! ## Health maintenance endpoint (src/app/api/jobs/health/route.ts POST) -/

/-- Result of one health-POST invocation. -/
structure HealthOut where
  resp : HttpResp
  db : DB
  tr : List Ev
deriving DecidableEq

/-- The health maintenance POST: `action = "mark_failed"` force-fails every
listed job currently RUNNING or PENDING (prisma `updateMany`), recording one
status-write event per affected row. -/
def healthPOST (action : String) (jobIds : Option (List String)) (db : DB) : HealthOut :=
  if action = "mark_failed" then
    match jobIds with
    | none => ⟨⟨400, none, some ("jobIds array required")⟩, db, []⟩
    | some ids =>
      let affected := db.jobs.filter (fun p =>
        ids.contains p.1 ∧ (p.2.status = .RUNNING ∨ p.2.status = .PENDING))
      let db1 := { db with jobs := db.jobs.map (fun p =>
        if ids.contains p.1 ∧ (p.2.status = .RUNNING ∨ p.2.status = .PENDING) then
          (p.1, { p.2 with
                  status := .FAILED,
                  errorMessage := some ("Manually marked as failed due to being stuck") })
        else p) }
      ⟨⟨200, none, none⟩, db1, affected.map (fun p => Ev.statusWrite p.1 p.2.status .FAILED)⟩
  else ⟨⟨400, none, some ("Invalid action")⟩, db, []⟩

/-! ## Caption fetching (captions module, revision with extractVideoId) -/

/-- Outcome of one `YoutubeTranscript.fetchTranscript` attempt raced against
its 15-second timeout: a thrown error, or the transcript items' text fields. -/
inductive CaptionAttempt
| throws (msg : String)
| items (texts : List String)
deriving DecidableEq

/-- Oracle giving the outcome of each fetch attempt (numbered from 1). -/
structure CaptionsEnv where
  attempts : Nat → CaptionAttempt

/-- Result of `fetchCaptions`: the returned value, the number of fetch
attempts made, and the inter-attempt delays in milliseconds. -/
structure CaptionsOut where
  result : Option String
  attemptsMade : Nat
  delays : List Nat
deriving DecidableEq

/-- JavaScript `String.prototype.trim` (the whitespace characters relevant
here are the ASCII ones). -/
def jsTrim (s : String) : String :=
  String.mk (((s.data.dropWhile Char.isWhitespace).reverse.dropWhile Char.isWhitespace).reverse)

/-- Retry loop of `fetchCaptions`: attempts count from 1 to maxRetries = 3; a
thrown fetch retries after a `retryDelay * attempt` = `1000 * attempt` ms
delay, with the last attempt returning null; an empty transcript array returns
null immediately; items are joined with spaces and trimmed. -/
def fetchCaptionsGo (env : CaptionsEnv) : Nat → Nat → List Nat → CaptionsOut
  | _, 0, delays => ⟨none, 0, delays⟩
  | attempt, fuel + 1, delays =>
    match env.attempts attempt with
    | .items texts =>
      if texts.isEmpty then ⟨none, attempt, delays⟩
      else ⟨some (jsTrim (String.intercalate " " texts)), attempt, delays⟩
    | .throws _ =>
      if fuel = 0 then ⟨none, attempt, delays⟩
      else fetchCaptionsGo env (attempt + 1) fuel (delays ++ [1000 * attempt])

/-- `fetchCaptions`: returns null without any fetch attempt when no video id
is extractable; otherwise runs up to 3 attempts against the cleaned watch URL.
Every error is caught internally: the function never throws to its caller. -/
def fetchCaptions (env : CaptionsEnv) (videoUrl : String) : CaptionsOut :=
  match extractVideoIdCaptions videoUrl with
  | none => ⟨none, 0, []⟩
  | some _ => fetchCaptionsGo env 1 3 []

/-! ## Concrete fixtures exercising the model -/

/-- Sample metadata for a 5-minute video. -/
def exMd : VideoMetadata := ⟨some ("T"), some ("C"), some ("D"), some 300⟩

/-- Sample SIWT worker response. -/
def exSiwt : SiwtResponse := ⟨"hello transcript", "en", "captions"⟩

/-- Sample full analysis output. -/
def exA : AnalysisOutput :=
  ⟨"one", ["b1", "b2"], ["o"], 80, ["s"], "English", "en",
    [⟨"c1", 70, [⟨"u", "s", "v"⟩]⟩]⟩

/-- Happy-path pipeline oracle. -/
def exEnv : PipeEnv := ⟨.ok exMd, .ok exSiwt, .ok exA⟩

/-- Store holding one PENDING job for `https://youtu.be/vid1`. -/
def exDb0 : DB := ⟨[("vid1", ⟨.PENDING, "https://youtu.be/vid1", none⟩)], [], [], [], [], 0⟩

example :
    ((runPipeline exEnv ("vid1") ("https://youtu.be/vid1") none ⟨exDb0, []⟩).db.findJob
      ("vid1")).map (fun j => j.status) = some .COMPLETED := by decide

example :
    ((runPipeline exEnv ("vid1") ("https://youtu.be/vid1") none ⟨exDb0, []⟩).db.findVideo
      ("https://youtu.be/vid1")).map (fun v => v.transcript) =
      some (some ("hello transcript")) := by decide

/-- Pipeline oracle whose analysis stage times out. -/
def exEnvAFail : PipeEnv := ⟨.ok exMd, .ok exSiwt, .error ("Analysis timeout")⟩

example :
    ((runPipeline exEnvAFail ("vid1") ("https://youtu.be/vid1") none ⟨exDb0, []⟩).db.findJob
      ("vid1")).map (fun j => (j.status, j.errorMessage)) =
      some (.FAILED, some ("Analysis timeout")) := by decide

example :
    ((runPipeline exEnvAFail ("vid1") ("https://youtu.be/vid1") none ⟨exDb0, []⟩).db.findVideo
      ("https://youtu.be/vid1")).map (fun v => v.transcript) =
      some (some ("hello transcript")) := by decide

/-- Metadata of a 121-minute video. -/
def exMdLong : VideoMetadata := ⟨some ("T"), some ("C"), some ("D"), some 7260⟩

example :
    ((runPipeline ⟨.ok exMdLong, .ok exSiwt, .ok exA⟩ ("vid1") ("https://youtu.be/vid1") none
      ⟨exDb0, []⟩).db.findJob ("vid1")).map (fun j => (j.status, j.errorMessage)) =
      some (.FAILED, some ("Video too long for analysis (121 min > 120 min). Please provide a shorter video.")) := by
  decide

example :
    (runPipeline ⟨.ok exMdLong, .ok exSiwt, .ok exA⟩ ("vid1") ("https://youtu.be/vid1") none
      ⟨exDb0, []⟩).tr =
      [Ev.statusWrite ("vid1") .PENDING .RUNNING, Ev.metadataCall ("https://youtu.be/vid1"),
       Ev.statusWrite ("vid1") .RUNNING .FAILED] := by decide

/-- Store with a COMPLETED job, its analysis (id 10), one claim (id 20) with
one spot check (id 30), and the cached video (id 5). -/
def exDbDone : DB :=
  ⟨[("vid1", ⟨.COMPLETED, "https://youtu.be/vid1", none⟩)],
   [⟨5, "https://youtu.be/vid1", some ("T"), some ("C"), some ("cached text")⟩],
   [⟨10, "vid1", 5, "old", ["ob"], ["oo"], 40, ["os"], "English", "en"⟩],
   [⟨20, 10, "old claim", 60⟩],
   [⟨30, 20, "u", "s", "v"⟩],
   100⟩

/-- Parsed LLM reply that passes validation but has no `claims` key. -/
def exParsedNoClaims : ParsedAnalysis :=
  ⟨some ("new"), some (["nb"]), none, some 50, none, none⟩

/-- Retry oracle whose LLM reply lacks the claims array. -/
def exRetryEnvNoClaims : RetryEnv :=
  ⟨.ok (), ⟨.ok (.content exParsedNoClaims), .ok (.content exParsedNoClaims)⟩⟩

example :
    ((retryPOST exRetryEnvNoClaims (some ("vid1")) exDbDone).db.findJob ("vid1")).map
      (fun j => j.status) = some .COMPLETED := by decide

example :
    ((retryPOST exRetryEnvNoClaims (some ("vid1")) exDbDone).db.analyses.map
      (fun a => a.oneLiner)) = ["new"] := by decide

example :
    (retryPOST exRetryEnvNoClaims (some ("vid1")) exDbDone).db.claims = [] := by decide

example :
    (retryPOST exRetryEnvNoClaims (some ("vid1")) exDbDone).resp.status = 500 := by decide

/-! ## Claim theorems -/

/-- Join-and-trim of caption items
(`transcript.map(t => t.text).join(" ").trim()`, null on an empty array). -/
def captionText (texts : List String) : Option String :=
  if texts.isEmpty then none else some (jsTrim (String.intercalate " " texts))

/-- Expected outcome of the caption retry loop, written out attempt by
attempt: the first non-throwing attempt decides, and three throws give up. -/
def captionsExpected (env : CaptionsEnv) : CaptionsOut :=
  match env.attempts 1 with
  | .items ts => ⟨captionText ts, 1, []⟩
  | .throws _ =>
    match env.attempts 2 with
    | .items ts => ⟨captionText ts, 2, [1000]⟩
    | .throws _ =>
      match env.attempts 3 with
      | .items ts => ⟨captionText ts, 3, [1000, 2000]⟩
      | .throws _ => ⟨none, 3, [1000, 2000]⟩

/-- C10: `fetchCaptions` is total — it returns an `Option` for every input and
environment rather than propagating an error.  With no extractable video id it
answers null after zero fetch attempts; otherwise the first non-throwing
attempt decides the result (null for an empty caption list, the joined and
trimmed text otherwise) and three throwing attempts yield null, with at most 3
attempts and strictly increasing inter-attempt delays of 1000·k ms. -/
theorem fetchCaptions_total_spec (env : CaptionsEnv) (url : String) :
    (extractVideoIdCaptions url = none → fetchCaptions env url = ⟨none, 0, []⟩) ∧
    ((extractVideoIdCaptions url).isSome → fetchCaptions env url = captionsExpected env) ∧
    (fetchCaptions env url).attemptsMade ≤ 3 ∧
    ((fetchCaptions env url).delays = [] ∨ (fetchCaptions env url).delays = [1000] ∨
      (fetchCaptions env url).delays = [1000, 2000]) := by
  have hgo : fetchCaptionsGo env 1 3 [] = captionsExpected env := by
    cases h1 : env.attempts 1 with
    | items ts =>
      simp [fetchCaptionsGo, captionsExpected, captionText, h1]
      by_cases hts : ts = [] <;> simp [hts]
    | throws m1 =>
      cases h2 : env.attempts 2 with
      | items ts =>
        simp [fetchCaptionsGo, captionsExpected, captionText, h1, h2]
        by_cases hts : ts = [] <;> simp [hts]
      | throws m2 =>
        cases h3 : env.attempts 3 with
        | items ts =>
          simp [fetchCaptionsGo, captionsExpected, captionText, h1, h2, h3]
          by_cases hts : ts = [] <;> simp [hts]
        | throws m3 => simp [fetchCaptionsGo, captionsExpected, captionText, h1, h2, h3]
  have hbound : (captionsExpected env).attemptsMade ≤ 3 ∧
      ((captionsExpected env).delays = [] ∨ (captionsExpected env).delays = [1000] ∨
        (captionsExpected env).delays = [1000, 2000]) := by
    unfold captionsExpected
    cases env.attempts 1 with
    | items ts => simp
    | throws m1 =>
      cases env.attempts 2 with
      | items ts => simp
      | throws m2 =>
        cases env.attempts 3 with
        | items ts => simp
        | throws m3 => simp
  cases hx : extractVideoIdCaptions url with
  | none =>
    have hf : fetchCaptions env url = ⟨none, 0, []⟩ := by simp [fetchCaptions, hx]
    exact ⟨fun _ => hf, fun h => by simp [hx] at h, by simp [hf], by simp [hf]⟩
  | some v =>
    have hf : fetchCaptions env url = captionsExpected env := by
      simp [fetchCaptions, hx, hgo]
    exact ⟨fun h => by simp [hx] at h, fun _ => hf,
      by rw [hf]; exact hbound.1, by rw [hf]; exact hbound.2⟩

/-- Environment for the C10 witness: the first attempt throws, later ones
return two caption items. -/
def c10WitnessEnv : CaptionsEnv :=
  ⟨fun k => if k = 1 then .throws ("network error") else .items (["hi", "there"])⟩

/-- Witness for C10 at a concrete environment and URL. -/
theorem fetchCaptions_total_spec_witness :
    fetchCaptions c10WitnessEnv ("https://youtu.be/abc") = ⟨some ("hi there"), 2, [1000]⟩ :=
  ((fetchCaptions_total_spec c10WitnessEnv ("https://youtu.be/abc")).2.1 (by decide)).trans
    (by decide)

/-- C8: when the primary gpt-4o-mini call fails with HTTP 429 and code
`insufficient_quota`, the adapter makes exactly one fallback call to
gpt-3.5-turbo carrying the same system and user messages; on any other primary
failure no fallback call is made and the mapped error is surfaced. -/
theorem analyze_quota_fallback (env : AnalyzeEnv) (t u : String) (m : Option MetaInfo)
    (qe : ApiError) (hp : env.primary = .error qe) :
    (qe.status = some 429 → qe.code = some ("insufficient_quota") →
      ∃ s usr, (analyzeTranscript env t u m).calls =
        [⟨"gpt-4o-mini", s, usr⟩, ⟨"gpt-3.5-turbo", s, usr⟩]) ∧
    (¬ (qe.status = some 429 ∧ qe.code = some ("insufficient_quota")) →
      (analyzeTranscript env t u m).calls.map (fun c => c.model) = ["gpt-4o-mini"] ∧
      (analyzeTranscript env t u m).output = .error (openAiCatchMessage qe)) := by
  constructor
  · intro h1 h2
    unfold analyzeTranscript
    rw [hp]
    refine ⟨(getLanguageSpecificPrompts (detectLanguage t m)).system,
      jsReplaceFirst (getLanguageSpecificPrompts (detectLanguage t m)).user
        ("\x7btranscript\x7d") (jsSlice 20000 t), ?_⟩
    cases hf : env.fallback <;> simp [h1, h2, hf]
  · intro hn
    unfold analyzeTranscript
    rw [hp]
    refine ⟨?_, ?_⟩ <;> simp [hn]

/-- Environment for the C8 witness: primary quota-exhausted, fallback succeeds. -/
def c8WitnessEnv : AnalyzeEnv :=
  ⟨.error ⟨some 429, some ("insufficient_quota"), "quota"⟩, .ok (.content emptyParsed)⟩

/-- Witness for C8 at a concrete environment. -/
theorem analyze_quota_fallback_witness :
    ∃ s usr, (analyzeTranscript c8WitnessEnv ("t") ("u") none).calls =
      [⟨"gpt-4o-mini", s, usr⟩, ⟨"gpt-3.5-turbo", s, usr⟩] :=
  (analyze_quota_fallback c8WitnessEnv ("t") ("u") none
    ⟨some 429, some ("insufficient_quota"), "quota"⟩ rfl).1 rfl rfl

/-- Finding an id in an association list after the in-place update that
`DB.setJob` performs. -/
theorem find_assoc_set (l : List (String × JobRow)) (id : String) (row : JobRow) :
    ((l.map (fun p => if p.1 = id then (id, row) else p)).find?
        (fun p => p.1 = id)).map (fun p => p.2) =
      ((l.find? (fun p => p.1 = id)).map (fun p => p.2)).map (fun _ => row) := by
  induction l with
  | nil => rfl
  | cons hd tl ih =>
    by_cases h : hd.1 = id
    · simp [h]
    · simp only [List.map_cons, List.find?_cons, h]
      simpa [h] using ih

/-- `DB.findJob` after `DB.setJob` on the same key. -/
theorem findJob_setJob (db : DB) (id : String) (row : JobRow) :
    (db.setJob id row).findJob id = (db.findJob id).map (fun _ => row) := by
  unfold DB.setJob DB.findJob
  simpa using find_assoc_set db.jobs id row

/-- `jobSetStatus` leaves every non-job table unchanged. -/
theorem jobSetStatus_analyses (st : PSt) (jid : String) (stat : JobStatus)
    (em : Option (Option String)) :
    (jobSetStatus st jid stat em).db.analyses = st.db.analyses := by
  unfold jobSetStatus
  cases st.db.findJob jid <;> rfl

/-- Claim rows are untouched by `jobSetStatus`. -/
theorem jobSetStatus_claims (st : PSt) (jid : String) (stat : JobStatus)
    (em : Option (Option String)) :
    (jobSetStatus st jid stat em).db.claims = st.db.claims := by
  unfold jobSetStatus
  cases st.db.findJob jid <;> rfl

/-- Spot-check rows are untouched by `jobSetStatus`. -/
theorem jobSetStatus_spotChecks (st : PSt) (jid : String) (stat : JobStatus)
    (em : Option (Option String)) :
    (jobSetStatus st jid stat em).db.spotChecks = st.db.spotChecks := by
  unfold jobSetStatus
  cases st.db.findJob jid <;> rfl

/-- Video rows are untouched by `jobSetStatus`. -/
theorem jobSetStatus_videos (st : PSt) (jid : String) (stat : JobStatus)
    (em : Option (Option String)) :
    (jobSetStatus st jid stat em).db.videos = st.db.videos := by
  unfold jobSetStatus
  cases st.db.findJob jid <;> rfl

/-- `DB.findJob` after `jobSetStatus` on a present row. -/
theorem findJob_jobSetStatus (st : PSt) (jid : String) (stat : JobStatus)
    (em : Option (Option String)) (j : JobRow) (hj : st.db.findJob jid = some j) :
    (jobSetStatus st jid stat em).db.findJob jid =
      some { j with status := stat, errorMessage := em.getD j.errorMessage } := by
  unfold jobSetStatus
  rw [hj]
  simp [findJob_setJob, hj]

/-- Trace extension performed by `jobSetStatus` on a present row. -/
theorem jobSetStatus_tr (st : PSt) (jid : String) (stat : JobStatus)
    (em : Option (Option String)) (j : JobRow) (hj : st.db.findJob jid = some j) :
    (jobSetStatus st jid stat em).tr = st.tr ++ [Ev.statusWrite jid j.status stat] := by
  unfold jobSetStatus
  rw [hj]

/-- C7 counterexample: with the LLM reply parsing to an empty JSON object, the
analysis adapter returns SUCCESSFULLY with every required field absent — the
adapter itself performs no validation, so it does not raise an adapter failure
for a result missing the one-liner, bullet points and trust score. -/
theorem analyzeTranscript_returns_unvalidated :
    (analyzeTranscript ⟨.ok (.content emptyParsed), .ok (.content emptyParsed)⟩
        ("some transcript") ("u") none).output = .ok ⟨emptyParsed, "English", "en"⟩ ∧
    missingRequired emptyParsed = true := by
  decide

/-- C7 amended: the required-field validation lives in the retry route (the
adapter's caller).  When the adapter returns a result whose one-liner is
absent or empty, whose bullet points are absent, or whose trust score is
absent, the retry run throws before writing any Result data: the route
answers 500 with the validation message, the Analysis/Claim/SpotCheck tables
are untouched, and the job status is restored to COMPLETED. -/
theorem retry_validates_required (env : RetryEnv) (jid : String) (db : DB)
    (job : JobRow) (an : AnalysisRow) (video : VideoRow) (t : String) (av : AnalysisValue)
    (hjid : ¬ jid = "")
    (hj : db.findJob jid = some job)
    (ha : db.findAnalysisByJob jid = some an)
    (hv : db.findVideoById an.videoId = some video)
    (ht : video.transcript = some t) (htne : ¬ t = "")
    (hd : env.detect = .ok ())
    (ho : (analyzeTranscript env.llm t job.videoUrl (some ⟨video.title, none⟩)).output = .ok av)
    (hm : missingRequired av.parsed = true) :
    (retryPOST env (some jid) db).resp =
      ⟨500, none, some ("Invalid analysis result - missing required fields")⟩ ∧
    (retryPOST env (some jid) db).db.analyses = db.analyses ∧
    (retryPOST env (some jid) db).db.claims = db.claims ∧
    (retryPOST env (some jid) db).db.spotChecks = db.spotChecks ∧
    ((retryPOST env (some jid) db).db.findJob jid).map (fun j => j.status) =
      some .COMPLETED := by
  have hstep : retryPOST env (some jid) db =
      retryCatch jid
        { jobSetStatus ⟨db, [Ev.detectCall]⟩ jid .RUNNING (some none) with
          tr := (jobSetStatus ⟨db, [Ev.detectCall]⟩ jid .RUNNING (some none)).tr ++
            [Ev.analyzeCall t] }
        ("Invalid analysis result - missing required fields") := by
    unfold retryPOST retryMain
    simp [hjid, hj, ha, hv, ht, htne, hd, ho, hm]
  rw [hstep]
  unfold retryCatch
  have hj2 : ({ jobSetStatus ⟨db, [Ev.detectCall]⟩ jid .RUNNING (some none) with
      tr := (jobSetStatus ⟨db, [Ev.detectCall]⟩ jid .RUNNING (some none)).tr ++
        [Ev.analyzeCall t] } : PSt).db.findJob jid =
      some { job with status := .RUNNING, errorMessage := none } :=
    findJob_jobSetStatus (⟨db, [Ev.detectCall]⟩ : PSt) jid .RUNNING (some none) job hj
  refine ⟨rfl, ?_, ?_, ?_, ?_⟩
  · simp [jobSetStatus_analyses]
  · simp [jobSetStatus_claims]
  · simp [jobSetStatus_spotChecks]
  · rw [findJob_jobSetStatus _ _ _ _ _ hj2]
    rfl

/-- Retry oracle for the C7 witness: detection succeeds, the LLM parses to an
empty object. -/
def c7WitnessEnv : RetryEnv :=
  ⟨.ok (), ⟨.ok (.content emptyParsed), .ok (.content emptyParsed)⟩⟩

/-- Witness for C7's amended theorem at a concrete store and environment. -/
theorem retry_validates_required_witness :
    (retryPOST c7WitnessEnv (some ("vid1")) exDbDone).resp =
      ⟨500, none, some ("Invalid analysis result - missing required fields")⟩ ∧
    (retryPOST c7WitnessEnv (some ("vid1")) exDbDone).db.analyses = exDbDone.analyses ∧
    (retryPOST c7WitnessEnv (some ("vid1")) exDbDone).db.claims = exDbDone.claims ∧
    (retryPOST c7WitnessEnv (some ("vid1")) exDbDone).db.spotChecks = exDbDone.spotChecks ∧
    ((retryPOST c7WitnessEnv (some ("vid1")) exDbDone).db.findJob ("vid1")).map
      (fun j => j.status) = some .COMPLETED :=
  retry_validates_required c7WitnessEnv ("vid1") exDbDone
    ⟨.COMPLETED, "https://youtu.be/vid1", none⟩
    ⟨10, "vid1", 5, "old", ["ob"], ["oo"], 40, ["os"], "English", "en"⟩
    ⟨5, "https://youtu.be/vid1", some ("T"), some ("C"), some ("cached text")⟩
    ("cached text") ⟨emptyParsed, "English", "en"⟩
    (by decide) (by decide) (by decide) (by decide) (by decide) (by decide) rfl
    (by decide) (by decide)

/-- A replicated character that matches no class makes `any` false. -/
theorem any_replicate_false (n : Nat) (c : Char) (p : Char → Bool) (h : p c = false) :
    (List.replicate n c).any p = false := by
  induction n with
  | zero => rfl
  | succ k ih => simp [List.replicate_succ, List.any_cons, h, ih]

/-- Combined text with no metadata is the text itself (when non-empty). -/
theorem combinedTextOf_no_meta (text : String) (h : ¬ text = "") :
    combinedTextOf text none = text := by
  unfold combinedTextOf
  simp [jsTruthyStr, h]
  rfl

/-- Transcript of 20000 `a` characters. -/
def c9T1 : String := String.mk (List.replicate 20000 'a')

/-- Transcript agreeing with `c9T1` on its first 20000 characters, followed by
one Spanish-class character. -/
def c9T2 : String := String.mk (List.replicate 20000 'a' ++ ['ü'])

/-- Analysis oracle for the C9 counterexample (both calls succeed). -/
def c9Env : AnalyzeEnv := ⟨.ok (.content emptyParsed), .ok (.content emptyParsed)⟩

/-- `c9T1` is not empty. -/
theorem c9T1_ne : ¬ c9T1 = "" := by
  intro h
  have h2 : List.replicate 20000 'a' = ([] : List Char) := congrArg String.data h
  have h3 := congrArg List.length h2
  rw [List.length_replicate] at h3
  exact absurd h3 (by decide)

/-- `c9T2` is not empty. -/
theorem c9T2_ne : ¬ c9T2 = "" := by
  intro h
  have h2 : List.replicate 20000 'a' ++ ['ü'] = ([] : List Char) := congrArg String.data h
  have h3 := congrArg List.length h2
  rw [List.length_append, List.length_replicate] at h3
  exact absurd h3 (by decide)

/-- `detectLanguage` on the all-`a` transcript falls through to English. -/
theorem detect_c9T1 : detectLanguage c9T1 none = ⟨"English", "en", 7⟩ := by
  have hany : ∀ p : Char → Bool, p 'a' = false → testAny p c9T1 = false := by
    intro p hp
    show (List.replicate 20000 'a').any p = false
    exact any_replicate_false _ _ _ hp
  unfold detectLanguage
  rw [combinedTextOf_no_meta c9T1 c9T1_ne]
  unfold detectFromCombined
  rw [hany isVietnameseChar (by decide), hany isChineseChar (by decide),
    hany isJapaneseChar (by decide), hany isKoreanChar (by decide),
    hany isArabicChar (by decide), hany isHindiChar (by decide),
    hany isRussianChar (by decide), hany isSpanishChar (by decide),
    hany isFrenchChar (by decide), hany isGermanChar (by decide),
    hany isItalianChar (by decide), hany isPortugueseChar (by decide)]
  rfl

/-- `detectLanguage` on `c9T2` sees the trailing `ü` — which is in the Spanish
class, checked before French and German — and answers Spanish. -/
theorem detect_c9T2 : detectLanguage c9T2 none = ⟨"Spanish", "es", 8⟩ := by
  have hany : ∀ p : Char → Bool, p 'a' = false → testAny p c9T2 = p 'ü' := by
    intro p hp
    show (List.replicate 20000 'a' ++ ['ü']).any p = p 'ü'
    rw [List.any_append, any_replicate_false 20000 'a' p hp]
    simp
  unfold detectLanguage
  rw [combinedTextOf_no_meta c9T2 c9T2_ne]
  unfold detectFromCombined
  rw [hany isVietnameseChar (by decide), hany isChineseChar (by decide),
    hany isJapaneseChar (by decide), hany isKoreanChar (by decide),
    hany isArabicChar (by decide), hany isHindiChar (by decide),
    hany isRussianChar (by decide), hany isSpanishChar (by decide)]
  rfl

/-- C9 counterexample: two transcripts agreeing on their first 20000
characters on which `analyzeTranscript` (same URL, metadata and oracle)
behaves differently — language detection reads the FULL transcript, so the
detected language/languageCode in the output (and the prompt template choice)
depend on content beyond the 20000-character budget. -/
theorem analyze_beyond_budget_dependence :
    jsSlice 20000 c9T1 = jsSlice 20000 c9T2 ∧
    (analyzeTranscript c9Env c9T1 ("u") none).output ≠
      (analyzeTranscript c9Env c9T2 ("u") none).output := by
  constructor
  · unfold jsSlice c9T1 c9T2
    rw [String.ext_iff]
    show (List.replicate 20000 'a').take 20000 =
      (List.replicate 20000 'a' ++ ['ü']).take 20000
    rw [List.take_append_of_le_length (by rw [List.length_replicate])]
  · have e1 : (analyzeTranscript c9Env c9T1 ("u") none).output =
        .ok ⟨emptyParsed, "English", "en"⟩ := by
      unfold analyzeTranscript
      rw [detect_c9T1]
      rfl
    have e2 : (analyzeTranscript c9Env c9T2 ("u") none).output =
        .ok ⟨emptyParsed, "Spanish", "es"⟩ := by
      unfold analyzeTranscript
      rw [detect_c9T2]
      rfl
    rw [e1, e2]
    decide

/-- C9 amended: the adapter's behaviour is determined by the transcript's
first 20000 characters TOGETHER WITH the language-detection result computed
from the full transcript; and a transcript of any length never causes the
adapter to fail by itself — whenever the model call succeeds with parseable
content, the adapter succeeds. -/
theorem analyze_slice_determines :
    (∀ (env : AnalyzeEnv) (t1 t2 u : String) (m : Option MetaInfo),
      jsSlice 20000 t1 = jsSlice 20000 t2 →
      detectLanguage t1 m = detectLanguage t2 m →
      analyzeTranscript env t1 u m = analyzeTranscript env t2 u m) ∧
    (∀ (env : AnalyzeEnv) (t u : String) (m : Option MetaInfo) (p : ParsedAnalysis),
      env.primary = .ok (.content p) →
      (analyzeTranscript env t u m).output =
        .ok ⟨p, (detectLanguage t m).language, (detectLanguage t m).languageCode⟩) := by
  constructor
  · intro env t1 t2 u m hs hd
    unfold analyzeTranscript
    rw [hd, hs]
  · intro env t u m p hp
    unfold analyzeTranscript
    rw [hp]
    rfl

/-- Witness for C9's amended theorem at concrete inputs. -/
theorem analyze_slice_determines_witness :
    analyzeTranscript c9Env ("ab") ("u") none = analyzeTranscript c9Env ("ab") ("u") none ∧
    (analyzeTranscript c9Env ("abc") ("u") none).output =
      .ok ⟨emptyParsed, (detectLanguage ("abc") none).language,
        (detectLanguage ("abc") none).languageCode⟩ :=
  ⟨analyze_slice_determines.1 c9Env ("ab") ("ab") ("u") none rfl rfl,
    analyze_slice_determines.2 c9Env ("abc") ("u") none emptyParsed rfl⟩

/-- A successful `litThenGroup` means the literal occurred as a prefix. -/
theorem litThenGroup_isPrefixLemma {lit cs : List Char} {v : List Char}
    (h : litThenGroup lit cs = some v) : lit.isPrefixOf cs = true := by
  unfold litThenGroup at h
  by_cases hp : lit.isPrefixOf cs = true
  · exact hp
  · simp [hp] at h

/-- A prefix occurrence is a substring occurrence. -/
theorem containsSub_of_isPrefixOf {sub cs : List Char} (h : sub.isPrefixOf cs = true) :
    containsSub sub cs = true := by
  cases cs with
  | nil =>
    cases sub with
    | nil => rfl
    | cons a l => simp [List.isPrefixOf] at h
  | cons c rest => simp [containsSub, h]

/-- Substring occurrence is preserved by extending to the left. -/
theorem containsSub_cons (sub : List Char) (c : Char) (rest : List Char)
    (h : containsSub sub rest = true) : containsSub sub (c :: rest) = true := by
  simp [containsSub, h]

/-- Transitivity of the boolean prefix test. -/
theorem isPrefixOf_trans {a b cs : List Char} (h1 : a.isPrefixOf b = true)
    (h2 : b.isPrefixOf cs = true) : a.isPrefixOf cs = true := by
  rw [List.isPrefixOf_iff_prefix] at h1 h2 ⊢
  exact h1.trans h2

/-- A match of the combined first pattern implies the URL contains
`youtube.com` or `youtu.be`. -/
theorem scanPatOne_contains : ∀ cs : List Char, (scanPatOne cs).isSome = true →
    (containsSub ("youtube.com".data) cs || containsSub ("youtu.be".data) cs) = true := by
  intro cs
  induction cs with
  | nil => intro h; simp [scanPatOne] at h
  | cons c rest ih =>
    intro h
    rw [scanPatOne] at h
    cases h1 : litThenGroup ("youtube.com/watch?v=".data) (c :: rest) with
    | some v =>
      have hp := @isPrefixOf_trans ("youtube.com".data) ("youtube.com/watch?v=".data)
        (c :: rest) (by decide) (litThenGroup_isPrefixLemma h1)
      simp [containsSub_of_isPrefixOf hp]
    | none =>
      cases h2 : litThenGroup ("youtu.be/".data) (c :: rest) with
      | some v =>
        have hp := @isPrefixOf_trans ("youtu.be".data) ("youtu.be/".data)
          (c :: rest) (by decide) (litThenGroup_isPrefixLemma h2)
        simp [containsSub_of_isPrefixOf hp]
      | none =>
        cases h3 : litThenGroup ("youtube.com/embed/".data) (c :: rest) with
        | some v =>
          have hp := @isPrefixOf_trans ("youtube.com".data) ("youtube.com/embed/".data)
            (c :: rest) (by decide) (litThenGroup_isPrefixLemma h3)
          simp [containsSub_of_isPrefixOf hp]
        | none =>
          rw [h1, h2, h3] at h
          simp only [Option.none_orElse] at h
          have hor := ih h
          rw [Bool.or_eq_true] at hor
          rcases hor with hh | hh
          · simp [containsSub_cons _ c _ hh]
          · simp [containsSub_cons _ c _ hh]

/-- A match of the `watch\?.*v=` pattern implies the URL contains `youtube.com`. -/
theorem scanPatWatchAny_contains : ∀ cs : List Char, (scanPatWatchAny cs).isSome = true →
    containsSub ("youtube.com".data) cs = true := by
  intro cs
  induction cs with
  | nil => intro h; simp [scanPatWatchAny] at h
  | cons c rest ih =>
    intro h
    rw [scanPatWatchAny] at h
    by_cases hp : ("youtube.com/watch?".data).isPrefixOf (c :: rest) = true
    · exact containsSub_of_isPrefixOf (@isPrefixOf_trans ("youtube.com".data)
        ("youtube.com/watch?".data) (c :: rest) (by decide) hp)
    · rw [if_neg (by simpa using hp)] at h
      simp only [Option.none_orElse] at h
      exact containsSub_cons _ c _ (ih h)

/-- A match of the `\/v\/` pattern implies the URL contains `youtube.com`. -/
theorem scanPatSlashV_contains : ∀ cs : List Char, (scanPatSlashV cs).isSome = true →
    containsSub ("youtube.com".data) cs = true := by
  intro cs
  induction cs with
  | nil => intro h; simp [scanPatSlashV] at h
  | cons c rest ih =>
    intro h
    rw [scanPatSlashV] at h
    cases h1 : litThenGroup ("youtube.com/v/".data) (c :: rest) with
    | some v =>
      exact containsSub_of_isPrefixOf (@isPrefixOf_trans ("youtube.com".data)
        ("youtube.com/v/".data) (c :: rest) (by decide) (litThenGroup_isPrefixLemma h1))
    | none =>
      rw [h1] at h
      simp only [Option.none_orElse] at h
      exact containsSub_cons _ c _ (ih h)

/-- An extractable video id implies the submit handler's URL validation passes. -/
theorem extractVideoId_includes (url : String) (vid : String)
    (h : extractVideoId url = some vid) :
    (jsIncludes url ("youtube.com") || jsIncludes url ("youtu.be")) = true := by
  unfold extractVideoId at h
  unfold jsIncludes
  cases hA : scanPatOne url.data with
  | some v => exact scanPatOne_contains url.data (by simp [hA])
  | none =>
    cases hB : scanPatWatchAny url.data with
    | some v => simp [scanPatWatchAny_contains url.data (by simp [hB])]
    | none =>
      cases hC : scanPatSlashV url.data with
      | some v => simp [scanPatSlashV_contains url.data (by simp [hC])]
      | none => rw [hA, hB, hC] at h; simp at h

/-- C2: for a URL with an extractable stable video id, the derived job
identifier equals that id on every submission (independent of the random
UUID), and submitting while a Job with that identifier is PENDING or RUNNING
returns the existing identifier with 202 and performs no store write, no
event, and no pipeline run. -/
theorem submit_idempotent_dedup (env : SubmitEnv) (url vid : String) (db : DB) (j : JobRow)
    (hx : extractVideoId url = some vid)
    (hkey : env.apiKeyPresent = true)
    (hj : db.findJob vid = some j)
    (hst : j.status = .PENDING ∨ j.status = .RUNNING) :
    (∀ u : String, generateJobId u url = vid) ∧
    submitPOST env url db = ⟨⟨202, some vid, none⟩, ⟨db, []⟩, false⟩ := by
  have hinc := extractVideoId_includes url vid hx
  constructor
  · intro u
    unfold generateJobId
    rw [hx]
  · unfold submitPOST
    rcases hst with h | h <;>
      simp [hinc, hkey, generateJobId, hx, hj, h]

/-- Store for the C2 witness: a PENDING job under the video id. -/
def c2Db : DB :=
  ⟨[("ABC123", ⟨.PENDING, "https://youtube.com/watch?v=ABC123", none⟩)], [], [], [], [], 0⟩

/-- Submit oracle for the C2 witness. -/
def c2Env : SubmitEnv := ⟨true, "uuid-1", exEnv⟩

/-- Witness for C2 at a concrete URL, store and environment. -/
theorem submit_idempotent_dedup_witness :
    (∀ u : String, generateJobId u ("https://youtube.com/watch?v=ABC123") = "ABC123") ∧
    submitPOST c2Env ("https://youtube.com/watch?v=ABC123") c2Db =
      ⟨⟨202, some ("ABC123"), none⟩, ⟨c2Db, []⟩, false⟩ :=
  submit_idempotent_dedup c2Env ("https://youtube.com/watch?v=ABC123") ("ABC123") c2Db
    ⟨.PENDING, "https://youtube.com/watch?v=ABC123", none⟩
    (by decide) rfl (by decide) (Or.inl rfl)

/-- C5 amended: on a run whose metadata reports a duration strictly above
7200 seconds (120 minutes), the background pipeline marks the job FAILED with
the content-too-long message and its trace is exactly the RUNNING transition,
the metadata call and the FAILED transition — the remote worker, the
detection hint, the analysis adapter and the Video upsert are never invoked.
The Video cache read is not covered: the submit handler performs it
unconditionally before the pipeline starts (see the counterexample). -/
theorem pipeline_duration_ceiling (env : PipeEnv) (jid url : String)
    (exVid : Option VideoRow) (db : DB) (j : JobRow) (md : VideoMetadata) (d : Nat)
    (hj : db.findJob jid = some j)
    (hm : env.metadata = .ok md)
    (hd : md.duration = some d)
    (hgt : 7200 < d) :
    (runPipeline env jid url exVid ⟨db, []⟩).tr =
      [Ev.statusWrite jid j.status .RUNNING, Ev.metadataCall url,
       Ev.statusWrite jid .RUNNING .FAILED] ∧
    (runPipeline env jid url exVid ⟨db, []⟩).db.findJob jid =
      some { j with
             status := .FAILED,
             errorMessage := some (tooLongMsg (toString (jsRoundDiv60 d))) } := by
  have hrun : runPipeline env jid url exVid ⟨db, []⟩ =
      jobSetStatus
        ⟨(jobSetStatus ⟨db, []⟩ jid .RUNNING none).db,
         (jobSetStatus ⟨db, []⟩ jid .RUNNING none).tr ++ [Ev.metadataCall url]⟩
        jid .FAILED (some (some (tooLongMsg (toString (jsRoundDiv60 d))))) := by
    unfold runPipeline
    rw [hm]
    simp [hd, hgt]
  have e1db : (jobSetStatus ⟨db, []⟩ jid .RUNNING none).db.findJob jid =
      some { j with status := .RUNNING } :=
    findJob_jobSetStatus ⟨db, []⟩ jid .RUNNING none j hj
  have e1tr : (jobSetStatus ⟨db, []⟩ jid .RUNNING none).tr =
      [Ev.statusWrite jid j.status .RUNNING] :=
    jobSetStatus_tr ⟨db, []⟩ jid .RUNNING none j hj
  have e2db : ((⟨(jobSetStatus ⟨db, []⟩ jid .RUNNING none).db,
      (jobSetStatus ⟨db, []⟩ jid .RUNNING none).tr ++ [Ev.metadataCall url]⟩ : PSt)).db.findJob jid =
      some { j with status := .RUNNING } := e1db
  constructor
  · rw [hrun, jobSetStatus_tr _ jid .FAILED _ _ e2db, e1tr]
    rfl
  · rw [hrun, findJob_jobSetStatus _ jid .FAILED _ _ e2db]
    rfl

/-- C5 counterexample to the claim as stated: in a submission whose duration
(121 minutes) exceeds the ceiling, the Video cache lookup (`videoFind`) IS
invoked — it happens at submission time before the duration check — even
though the job ends FAILED with the content-too-long message. -/
theorem pipeline_duration_cache_lookup_counterexample :
    (Ev.videoFind ("https://youtu.be/vid1")) ∈
      (submitPOST ⟨true, "u", ⟨.ok exMdLong, .ok exSiwt, .ok exA⟩⟩
        ("https://youtu.be/vid1") ⟨[], [], [], [], [], 0⟩).st.tr ∧
    ((submitPOST ⟨true, "u", ⟨.ok exMdLong, .ok exSiwt, .ok exA⟩⟩
        ("https://youtu.be/vid1") ⟨[], [], [], [], [], 0⟩).st.db.findJob ("vid1")).map
      (fun jr => (jr.status, jr.errorMessage)) =
      some (.FAILED, some (tooLongMsg ("121"))) := by
  decide

/-- Witness for C5's amended theorem at a concrete run. -/
theorem pipeline_duration_ceiling_witness :
    (runPipeline ⟨.ok exMdLong, .ok exSiwt, .ok exA⟩ ("vid1") ("https://youtu.be/vid1") none
      ⟨exDb0, []⟩).tr =
      [Ev.statusWrite ("vid1") .PENDING .RUNNING, Ev.metadataCall ("https://youtu.be/vid1"),
       Ev.statusWrite ("vid1") .RUNNING .FAILED] ∧
    (runPipeline ⟨.ok exMdLong, .ok exSiwt, .ok exA⟩ ("vid1") ("https://youtu.be/vid1") none
      ⟨exDb0, []⟩).db.findJob ("vid1") =
      some { status := .FAILED, videoUrl := "https://youtu.be/vid1",
             errorMessage := some (tooLongMsg (toString (jsRoundDiv60 7260))) } :=
  pipeline_duration_ceiling ⟨.ok exMdLong, .ok exSiwt, .ok exA⟩ ("vid1")
    ("https://youtu.be/vid1") none exDb0
    ⟨.PENDING, "https://youtu.be/vid1", none⟩ exMdLong 7260
    (by decide) rfl (by decide) (by decide)

/-- Events added by `jobSetStatus` are status writes. -/
theorem mem_jobSetStatus_tr {st : PSt} {jid : String} {stat : JobStatus}
    {em : Option (Option String)} {e : Ev} (he : e ∈ (jobSetStatus st jid stat em).tr) :
    e ∈ st.tr ∨ ∃ f, e = Ev.statusWrite jid f stat := by
  unfold jobSetStatus at he
  cases hj : st.db.findJob jid with
  | none => rw [hj] at he; exact Or.inl he
  | some j =>
    rw [hj] at he
    rcases List.mem_append.1 he with h | h
    · exact Or.inl h
    · simp at h
      exact Or.inr ⟨j.status, h⟩

/-- The trace extension performed by `videoUpsertOp`. -/
theorem videoUpsertOp_tr (st : PSt) (url : String) (ti ch : Option String)
    (trn : Option String) :
    ((videoUpsertOp st url ti ch trn).1).tr = st.tr ++ [Ev.videoUpsert url trn] := by
  unfold videoUpsertOp
  cases st.db.findVideo url <;> rfl

/-- The trace is unchanged by `analysisCreateOp`. -/
theorem analysisCreateOp_tr (st : PSt) (jid : String) (vid : Nat) (a : AnalysisOutput) :
    ((analysisCreateOp st jid vid a).1).tr = st.tr := rfl

/-- Events added by `pipelineCatch` are a Video upsert and/or a FAILED write. -/
theorem mem_pipelineCatch_tr {jid url : String} {transcript : Option String}
    {siwtM : Option SiwtMeta} {md : Option VideoMetadata} {st : PSt} {msg : String}
    {e : Ev} (he : e ∈ (pipelineCatch jid url transcript siwtM md st msg).tr) :
    e ∈ st.tr ∨ (∃ trn, e = Ev.videoUpsert url trn) ∨
      ∃ f, e = Ev.statusWrite jid f .FAILED := by
  unfold pipelineCatch at he
  rcases mem_jobSetStatus_tr he with h | h
  · split at h
    · rename_i t m
      split at h
      · rw [videoUpsertOp_tr] at h
        rcases List.mem_append.1 h with h2 | h2
        · exact Or.inl h2
        · simp at h2
          exact Or.inr (Or.inl ⟨some t, h2⟩)
      · exact Or.inl h
    · exact Or.inl h
  · exact Or.inr (Or.inr h)

/-- Events added by `afterTranscript` are the analysis call on the given
transcript, Video upserts, and status writes. -/
theorem mem_afterTranscript_tr {env : PipeEnv} {jid url : String} {md : VideoMetadata}
    {t : String} {siwtM : Option SiwtMeta} {st : PSt} {e : Ev}
    (he : e ∈ (afterTranscript env jid url md t siwtM st).tr) :
    e ∈ st.tr ∨ e = Ev.analyzeCall t ∨ (∃ trn, e = Ev.videoUpsert url trn) ∨
      ∃ f s, e = Ev.statusWrite jid f s := by
  unfold afterTranscript at he
  cases ha : env.analysis with
  | error m =>
    rw [ha] at he
    rcases mem_pipelineCatch_tr he with h | h | h
    · rcases List.mem_append.1 h with h2 | h2
      · exact Or.inl h2
      · simp at h2
        exact Or.inr (Or.inl h2)
    · exact Or.inr (Or.inr (Or.inl h))
    · rcases h with ⟨f, hf⟩
      exact Or.inr (Or.inr (Or.inr ⟨f, .FAILED, hf⟩))
  | ok a =>
    rw [ha] at he
    rcases mem_jobSetStatus_tr he with h | h
    · simp only [analysisCreateOp_tr, videoUpsertOp_tr] at h
      rcases List.mem_append.1 h with h2 | h2
      · rcases List.mem_append.1 h2 with h3 | h3
        · exact Or.inl h3
        · simp at h3
          exact Or.inr (Or.inl h3)
      · simp at h2
        exact Or.inr (Or.inr (Or.inl ⟨some t, h2⟩))
    · rcases h with ⟨f, hf⟩
      exact Or.inr (Or.inr (Or.inr ⟨f, .COMPLETED, hf⟩))

/-- In a run with a cached truthy transcript, every trace event is the
metadata call, the analysis call on the cached transcript, a Video upsert, or
a status write — in particular no worker call and no detection call. -/
theorem mem_runPipeline_cached_tr {env : PipeEnv} {jid url : String} {v : VideoRow}
    {t : String} {db : DB} {e : Ev}
    (hv : v.transcript = some t) (ht : ¬ t = "")
    (he : e ∈ (runPipeline env jid url (some v) ⟨db, []⟩).tr) :
    e = Ev.metadataCall url ∨ e = Ev.analyzeCall t ∨
      (∃ trn, e = Ev.videoUpsert url trn) ∨ ∃ f s, e = Ev.statusWrite jid f s := by
  have hst1 : ∀ e2 : Ev, e2 ∈ (jobSetStatus ⟨db, []⟩ jid .RUNNING none).tr →
      ∃ f s, e2 = Ev.statusWrite jid f s := by
    intro e2 h2
    rcases mem_jobSetStatus_tr h2 with h3 | h3
    · simp at h3
    · rcases h3 with ⟨f, hf⟩
      exact ⟨f, .RUNNING, hf⟩
  have hst1b : ∀ e2 : Ev,
      e2 ∈ (jobSetStatus ⟨db, []⟩ jid .RUNNING none).tr ++ [Ev.metadataCall url] →
      e2 = Ev.metadataCall url ∨ ∃ f s, e2 = Ev.statusWrite jid f s := by
    intro e2 h2
    rcases List.mem_append.1 h2 with h3 | h3
    · exact Or.inr (hst1 e2 h3)
    · simp at h3
      exact Or.inl h3
  unfold runPipeline at he
  cases hm : env.metadata with
  | error m =>
    rw [hm] at he
    simp only [] at he
    rcases mem_pipelineCatch_tr he with h | h | h
    · rcases hst1b e h with h2 | h2
      · exact Or.inl h2
      · exact Or.inr (Or.inr (Or.inr h2))
    · exact Or.inr (Or.inr (Or.inl h))
    · rcases h with ⟨f, hf⟩
      exact Or.inr (Or.inr (Or.inr ⟨f, .FAILED, hf⟩))
  | ok md =>
    have hstep2 : ∀ st : PSt,
        (∀ e2 : Ev, e2 ∈ st.tr → e2 = Ev.metadataCall url ∨ ∃ f s, e2 = Ev.statusWrite jid f s) →
        e ∈ (pipelineStep2 env jid url (some v) md st).tr →
        e = Ev.metadataCall url ∨ e = Ev.analyzeCall t ∨
          (∃ trn, e = Ev.videoUpsert url trn) ∨ ∃ f s, e = Ev.statusWrite jid f s := by
      intro st hstIn he2
      unfold pipelineStep2 at he2
      simp only [] at he2
      rw [hv] at he2
      simp only [] at he2
      rw [if_pos (by simpa using ht)] at he2
      rcases mem_afterTranscript_tr he2 with h | h | h | h
      · rcases hstIn e h with h2 | h2
        · exact Or.inl h2
        · exact Or.inr (Or.inr (Or.inr h2))
      · exact Or.inr (Or.inl h)
      · exact Or.inr (Or.inr (Or.inl h))
      · exact Or.inr (Or.inr (Or.inr h))
    rw [hm] at he
    simp only [] at he
    cases hd : md.duration with
    | none =>
      rw [hd] at he
      simp only [] at he
      exact hstep2 _ hst1b he
    | some d =>
      rw [hd] at he
      simp only [] at he
      by_cases hgt : 7200 < d
      · rw [if_pos hgt] at he
        rcases mem_jobSetStatus_tr he with h | h
        · rcases hst1b e h with h2 | h2
          · exact Or.inl h2
          · exact Or.inr (Or.inr (Or.inr h2))
        · rcases h with ⟨f, hf⟩
          exact Or.inr (Or.inr (Or.inr ⟨f, .FAILED, hf⟩))
      · rw [if_neg hgt] at he
        exact hstep2 _ hst1b he

/-- Every event of a `retryMain` run is the detection call, the analysis call
on the stored transcript, or a status write. -/
theorem mem_retryMain_tr {env : RetryEnv} {jid : String} {job : JobRow}
    {an : AnalysisRow} {video : VideoRow} {t : String} {db : DB} {e : Ev}
    (he : e ∈ (retryMain env jid job an video t db).tr) :
    e = Ev.detectCall ∨ e = Ev.analyzeCall t ∨ ∃ f s, e = Ev.statusWrite jid f s := by
  have base : ∀ e2 : Ev, e2 ∈ ([Ev.detectCall] : List Ev) → e2 = Ev.detectCall := by
    intro e2 h2
    simpa using h2
  have hcatch : ∀ (st : PSt) (msg : String),
      (∀ e2 : Ev, e2 ∈ st.tr →
        e2 = Ev.detectCall ∨ e2 = Ev.analyzeCall t ∨ ∃ f s, e2 = Ev.statusWrite jid f s) →
      e ∈ (retryCatch jid st msg).tr →
      e = Ev.detectCall ∨ e = Ev.analyzeCall t ∨ ∃ f s, e = Ev.statusWrite jid f s := by
    intro st msg hstIn he2
    unfold retryCatch at he2
    rcases mem_jobSetStatus_tr he2 with h | h
    · exact hstIn e h
    · rcases h with ⟨f, hf⟩
      exact Or.inr (Or.inr ⟨f, .COMPLETED, hf⟩)
  have hst0 : ∀ e2 : Ev, e2 ∈ (⟨db, [Ev.detectCall]⟩ : PSt).tr →
      e2 = Ev.detectCall ∨ e2 = Ev.analyzeCall t ∨ ∃ f s, e2 = Ev.statusWrite jid f s := by
    intro e2 h2
    exact Or.inl (base e2 h2)
  have hst2 : ∀ e2 : Ev,
      e2 ∈ (jobSetStatus ⟨db, [Ev.detectCall]⟩ jid .RUNNING (some none)).tr ++ [Ev.analyzeCall t] →
      e2 = Ev.detectCall ∨ e2 = Ev.analyzeCall t ∨ ∃ f s, e2 = Ev.statusWrite jid f s := by
    intro e2 h2
    rcases List.mem_append.1 h2 with h3 | h3
    · rcases mem_jobSetStatus_tr h3 with h4 | h4
      · exact Or.inl (base e2 h4)
      · rcases h4 with ⟨f, hf⟩
        exact Or.inr (Or.inr ⟨f, .RUNNING, hf⟩)
    · simp at h3
      exact Or.inr (Or.inl h3)
  unfold retryMain at he
  cases hd : env.detect with
  | error m =>
    rw [hd] at he
    simp only [] at he
    exact hcatch _ m hst0 he
  | ok u =>
    rw [hd] at he
    simp only [] at he
    cases ho : (analyzeTranscript env.llm t job.videoUrl (some ⟨video.title, none⟩)).output with
    | error m =>
      rw [ho] at he
      simp only [] at he
      exact hcatch _ m hst2 he
    | ok av =>
      rw [ho] at he
      simp only [] at he
      by_cases hm : missingRequired av.parsed = true
      · rw [if_pos hm] at he
        exact hcatch _ _ hst2 he
      · rw [if_neg hm] at he
        cases hc : av.parsed.claims with
        | none =>
          rw [hc] at he
          simp only [] at he
          exact hcatch _ _ hst2 he
        | some cs =>
          rw [hc] at he
          simp only [] at he
          rcases mem_jobSetStatus_tr he with h | h
          · exact hst2 e h
          · rcases h with ⟨f, hf⟩
            exact Or.inr (Or.inr ⟨f, .COMPLETED, hf⟩)

/-- Every event of a `retryPOST` run is the detection call, a status write, or
the analysis call on the transcript stored in the Video row linked to the
job's analysis. -/
theorem mem_retryPOST_tr {renv : RetryEnv} {jobId : Option String} {db : DB} {e : Ev}
    (he : e ∈ (retryPOST renv jobId db).tr) :
    (e = Ev.detectCall ∨ ∃ jid f s, e = Ev.statusWrite jid f s) ∨
    ∃ jid an video t, jobId = some jid ∧ db.findAnalysisByJob jid = some an ∧
      db.findVideoById an.videoId = some video ∧ video.transcript = some t ∧
      e = Ev.analyzeCall t := by
  unfold retryPOST at he
  cases jobId with
  | none => simp at he
  | some jid =>
    simp only [] at he
    by_cases hjid : jid = ""
    · rw [if_pos hjid] at he
      simp at he
    · rw [if_neg hjid] at he
      cases hj : db.findJob jid with
      | none => rw [hj] at he; simp at he
      | some job =>
        rw [hj] at he
        simp only [] at he
        cases ha : db.findAnalysisByJob jid with
        | none => rw [ha] at he; simp at he
        | some an =>
          rw [ha] at he
          simp only [] at he
          cases hv : db.findVideoById an.videoId with
          | none => rw [hv] at he; simp at he
          | some video =>
            rw [hv] at he
            simp only [] at he
            cases ht : video.transcript with
            | none => rw [ht] at he; simp at he
            | some t =>
              rw [ht] at he
              simp only [] at he
              by_cases hte : t = ""
              · rw [if_pos hte] at he
                simp at he
              · rw [if_neg hte] at he
                rcases mem_retryMain_tr he with h | h | h
                · exact Or.inl (Or.inl h)
                · exact Or.inr ⟨jid, an, video, t, rfl, ha, hv, ht, h⟩
                · rcases h with ⟨f, s2, hf⟩
                  exact Or.inl (Or.inr ⟨jid, f, s2, hf⟩)

/-- C6: a run whose URL has a cached truthy transcript never invokes the
remote worker (nor the detection hint that precedes it), and any analysis call
it makes receives exactly the cached transcript; the retry endpoint never
invokes the worker at all, and any analysis call it makes receives the
transcript stored in the Video row linked to the job's analysis. -/
theorem cached_transcript_short_circuits :
    (∀ (env : PipeEnv) (jid url : String) (v : VideoRow) (t : String) (db : DB),
      v.transcript = some t → ¬ t = "" →
      ((∀ x lang : String,
          Ev.siwtCall x lang ∉ (runPipeline env jid url (some v) ⟨db, []⟩).tr) ∧
        Ev.detectCall ∉ (runPipeline env jid url (some v) ⟨db, []⟩).tr ∧
        ∀ s : String,
          Ev.analyzeCall s ∈ (runPipeline env jid url (some v) ⟨db, []⟩).tr → s = t)) ∧
    (∀ (renv : RetryEnv) (jobId : Option String) (db : DB),
      (∀ x lang : String, Ev.siwtCall x lang ∉ (retryPOST renv jobId db).tr) ∧
      (∀ s : String, Ev.analyzeCall s ∈ (retryPOST renv jobId db).tr →
        ∃ jid an video, jobId = some jid ∧ db.findAnalysisByJob jid = some an ∧
          db.findVideoById an.videoId = some video ∧ video.transcript = some s)) := by
  constructor
  · intro env jid url v t db hv ht
    refine ⟨?_, ?_, ?_⟩
    · intro x lang hmem
      rcases mem_runPipeline_cached_tr hv ht hmem with h | h | ⟨trn, h⟩ | ⟨f, s2, h⟩ <;>
        simp at h
    · intro hmem
      rcases mem_runPipeline_cached_tr hv ht hmem with h | h | ⟨trn, h⟩ | ⟨f, s2, h⟩ <;>
        simp at h
    · intro s hmem
      rcases mem_runPipeline_cached_tr hv ht hmem with h | h | ⟨trn, h⟩ | ⟨f, s2, h⟩
      · simp at h
      · exact Ev.analyzeCall.inj h
      · simp at h
      · simp at h
  · intro renv jobId db
    constructor
    · intro x lang hmem
      rcases mem_retryPOST_tr hmem with (h | ⟨jid, f, s2, h⟩) |
        ⟨jid, an, video, t, h1, h2, h3, h4, h5⟩
      · simp at h
      · simp at h
      · simp at h5
    · intro s hmem
      rcases mem_retryPOST_tr hmem with (h | ⟨jid, f, s2, h⟩) |
        ⟨jid, an, video, t, h1, h2, h3, h4, h5⟩
      · simp at h
      · simp at h
      · obtain rfl := Ev.analyzeCall.inj h5
        exact ⟨jid, an, video, h1, h2, h3, h4⟩

/-- Witness for C6 at a concrete cached run and a concrete retry store. -/
theorem cached_transcript_short_circuits_witness :
    ((∀ x lang : String,
        Ev.siwtCall x lang ∉ (runPipeline exEnv ("vid1") ("https://youtu.be/vid1")
          (some ⟨5, "https://youtu.be/vid1", some ("T"), some ("C"), some ("cached text")⟩)
          ⟨exDb0, []⟩).tr) ∧
      Ev.detectCall ∉ (runPipeline exEnv ("vid1") ("https://youtu.be/vid1")
        (some ⟨5, "https://youtu.be/vid1", some ("T"), some ("C"), some ("cached text")⟩)
        ⟨exDb0, []⟩).tr ∧
      ∀ s : String,
        Ev.analyzeCall s ∈ (runPipeline exEnv ("vid1") ("https://youtu.be/vid1")
          (some ⟨5, "https://youtu.be/vid1", some ("T"), some ("C"), some ("cached text")⟩)
          ⟨exDb0, []⟩).tr → s = "cached text") :=
  cached_transcript_short_circuits.1 exEnv ("vid1") ("https://youtu.be/vid1")
    ⟨5, "https://youtu.be/vid1", some ("T"), some ("C"), some ("cached text")⟩
    ("cached text") exDb0 rfl (by decide)

/-- Job rows are untouched by `videoUpsertOp`. -/
theorem videoUpsertOp_jobs (st : PSt) (url : String) (ti ch trn : Option String) :
    ((videoUpsertOp st url ti ch trn).1).db.jobs = st.db.jobs := by
  unfold videoUpsertOp
  cases st.db.findVideo url <;> rfl

/-- Job rows are untouched by `analysisCreateOp`. -/
theorem analysisCreateOp_jobs (st : PSt) (jid : String) (vid : Nat) (a : AnalysisOutput) :
    ((analysisCreateOp st jid vid a).1).db.jobs = st.db.jobs := rfl

/-- Job rows are untouched by `spotChecksCreate`. -/
theorem spotChecksCreate_jobs (claimId : Nat) (scs : List SpotCheckParsed) (db : DB) :
    (spotChecksCreate claimId scs db).jobs = db.jobs := by
  induction scs generalizing db with
  | nil => rfl
  | cons hd tl ih => simpa [spotChecksCreate] using ih _

/-- Job rows are untouched by `claimsCreate`. -/
theorem claimsCreate_jobs (analysisId : Nat) (cs : List ClaimParsed) (db : DB) :
    (claimsCreate analysisId cs db).jobs = db.jobs := by
  induction cs generalizing db with
  | nil => rfl
  | cons hd tl ih =>
    unfold claimsCreate
    simp only [List.foldl_cons]
    have := ih (spotChecksCreate db.nextId hd.spotChecks
      { db with
        claims := db.claims ++ [⟨db.nextId, analysisId, hd.text, hd.confidence⟩],
        nextId := db.nextId + 1 })
    unfold claimsCreate at this
    rw [this, spotChecksCreate_jobs]

/-- Video rows are untouched by `spotChecksCreate`. -/
theorem spotChecksCreate_videos (claimId : Nat) (scs : List SpotCheckParsed) (db : DB) :
    (spotChecksCreate claimId scs db).videos = db.videos := by
  induction scs generalizing db with
  | nil => rfl
  | cons hd tl ih => simpa [spotChecksCreate] using ih _

/-- Video rows are untouched by `claimsCreate`. -/
theorem claimsCreate_videos (analysisId : Nat) (cs : List ClaimParsed) (db : DB) :
    (claimsCreate analysisId cs db).videos = db.videos := by
  induction cs generalizing db with
  | nil => rfl
  | cons hd tl ih =>
    unfold claimsCreate
    simp only [List.foldl_cons]
    have := ih (spotChecksCreate db.nextId hd.spotChecks
      { db with
        claims := db.claims ++ [⟨db.nextId, analysisId, hd.text, hd.confidence⟩],
        nextId := db.nextId + 1 })
    unfold claimsCreate at this
    rw [this, spotChecksCreate_videos]

/-- `DB.findJob` is unchanged by `videoUpsertOp`. -/
theorem findJob_videoUpsertOp (st : PSt) (url : String) (ti ch trn : Option String)
    (jid : String) :
    ((videoUpsertOp st url ti ch trn).1).db.findJob jid = st.db.findJob jid := by
  unfold DB.findJob
  rw [videoUpsertOp_jobs]

/-- `DB.findVideo` is unchanged by `jobSetStatus`. -/
theorem findVideo_jobSetStatus (st : PSt) (jid : String) (stat : JobStatus)
    (em : Option (Option String)) (url : String) :
    (jobSetStatus st jid stat em).db.findVideo url = st.db.findVideo url := by
  unfold DB.findVideo
  rw [jobSetStatus_videos]

/-- Finding the url key after the in-place update of `videoUpsertOp`. -/
theorem find_video_set (l : List VideoRow) (url : String) (ti ch trn : Option String)
    (v : VideoRow) (h : l.find? (fun w => w.url = url) = some v) :
    (l.map (fun w => if w.url = url then
        { w with title := ti, channel := ch, transcript := trn } else w)).find?
      (fun w => w.url = url) =
      some { v with title := ti, channel := ch, transcript := trn } := by
  induction l with
  | nil => simp at h
  | cons hd tl ih =>
    by_cases hu : hd.url = url
    · rw [List.find?_cons_of_pos _ (by simpa using hu)] at h
      have hv : hd = v := by simpa using h
      subst hv
      rw [List.map_cons, if_pos hu, List.find?_cons_of_pos _ (by simpa using hu)]
    · rw [List.find?_cons_of_neg _ (by simpa using hu)] at h
      rw [List.map_cons, if_neg hu, List.find?_cons_of_neg _ (by simpa using hu)]
      exact ih h

/-- Finding the url key after appending a fresh row with that url. -/
theorem find_video_append_new (l : List VideoRow) (url : String) (row : VideoRow)
    (hrow : row.url = url) (h : l.find? (fun w => w.url = url) = none) :
    (l ++ [row]).find? (fun w => w.url = url) = some row := by
  rw [List.find?_append, h]
  simp [List.find?_cons_of_pos, hrow]

/-- After `videoUpsertOp`, the url's Video row holds exactly the written
title, channel and transcript. -/
theorem findVideo_videoUpsertOp (st : PSt) (url : String) (ti ch trn : Option String) :
    ∃ i, ((videoUpsertOp st url ti ch trn).1).db.findVideo url =
      some ⟨i, url, ti, ch, trn⟩ := by
  unfold videoUpsertOp DB.findVideo
  cases hv : st.db.videos.find? (fun w => w.url = url) with
  | some v =>
    refine ⟨v.id, ?_⟩
    simp only []
    rw [find_video_set st.db.videos url ti ch trn v hv]
    have hu : v.url = url := by
      have := List.find?_some hv
      simpa using this
    rw [hu]
  | none =>
    refine ⟨st.db.nextId, ?_⟩
    simp only []
    exact find_video_append_new st.db.videos url ⟨st.db.nextId, url, ti, ch, trn⟩ rfl hv

/-- Job status seen after a `jobSetStatus`. -/
theorem jobSetStatus_status_after (st : PSt) (jid : String) (stat : JobStatus)
    (em : Option (Option String)) :
    ((jobSetStatus st jid stat em).db.findJob jid).map (fun j => j.status) =
      (st.db.findJob jid).map (fun _ => stat) := by
  unfold jobSetStatus
  cases hj : st.db.findJob jid with
  | none =>
    simp only []
    rw [hj]
    rfl
  | some j =>
    simp only []
    rw [findJob_setJob, hj]
    rfl

/-- If the `afterTranscript` stage leaves the job FAILED, the analysis call
errored and the Video row for the url was upserted with the transcript before
the FAILED write (recorded in the trace in that order). -/
theorem afterTranscript_failed (env : PipeEnv) (jid url : String) (md : VideoMetadata)
    (t : String) (siwtM : Option SiwtMeta) (st : PSt)
    (ht : ¬ t = "")
    (hfail : ((afterTranscript env jid url md t siwtM st).db.findJob jid).map
      (fun j => j.status) = some .FAILED) :
    (∃ i ti ch, (afterTranscript env jid url md t siwtM st).db.findVideo url =
      some ⟨i, url, ti, ch, some t⟩) ∧
    ∀ j : JobRow, st.db.findJob jid = some j →
      (afterTranscript env jid url md t siwtM st).tr =
        st.tr ++ [Ev.analyzeCall t, Ev.videoUpsert url (some t),
          Ev.statusWrite jid j.status .FAILED] := by
  unfold afterTranscript at hfail ⊢
  cases ha : env.analysis with
  | error m =>
    rw [ha] at hfail
    simp only [] at hfail ⊢
    unfold pipelineCatch at hfail ⊢
    simp only [] at hfail ⊢
    rw [if_pos (by simpa using ht)] at hfail ⊢
    constructor
    · rw [findVideo_jobSetStatus]
      obtain ⟨i, hi⟩ := findVideo_videoUpsertOp ⟨st.db, st.tr ++ [Ev.analyzeCall t]⟩ url
        (jsOrOpt (siwtM.bind (fun s => s.title)) md.title)
        (jsOrOpt (siwtM.bind (fun s => s.channel)) md.channel) (some t)
      exact ⟨i, _, _, hi⟩
    · intro j hj
      have hj1 : ((videoUpsertOp ⟨st.db, st.tr ++ [Ev.analyzeCall t]⟩ url
          (jsOrOpt (siwtM.bind (fun s => s.title)) md.title)
          (jsOrOpt (siwtM.bind (fun s => s.channel)) md.channel) (some t)).1).db.findJob jid =
          some j := by
        rw [findJob_videoUpsertOp]
        exact hj
      rw [jobSetStatus_tr _ jid .FAILED _ _ hj1, videoUpsertOp_tr]
      simp
  | ok a =>
    exfalso
    rw [ha] at hfail
    simp only [] at hfail
    rw [jobSetStatus_status_after] at hfail
    rw [Option.map_eq_some'] at hfail
    rcases hfail with ⟨x, _, hc⟩
    simp at hc

/-- `DB.findJob` depends only on the job relation. -/
theorem findJob_congr_jobs {db1 db2 : DB} (jid : String) (h : db1.jobs = db2.jobs) :
    db1.findJob jid = db2.findJob jid := by
  unfold DB.findJob
  rw [h]

/-- `jobSetStatus` is the identity when the job row is absent. -/
theorem jobSetStatus_none (st : PSt) (jid : String) (stat : JobStatus)
    (em : Option (Option String)) (h : st.db.findJob jid = none) :
    jobSetStatus st jid stat em = st := by
  unfold jobSetStatus
  rw [h]

/-- A job row absent from the store stays absent through `afterTranscript`. -/
theorem afterTranscript_findJob_none (env : PipeEnv) (jid url : String)
    (md : VideoMetadata) (t : String) (siwtM : Option SiwtMeta) (st : PSt)
    (h : st.db.findJob jid = none) :
    (afterTranscript env jid url md t siwtM st).db.findJob jid = none := by
  unfold afterTranscript
  cases ha : env.analysis with
  | error m =>
    simp only []
    unfold pipelineCatch
    simp only []
    have hgen : ∀ ST : PSt, ST.db.findJob jid = none →
        (jobSetStatus ST jid .FAILED (some (some m))).db.findJob jid = none := by
      intro ST h1
      rw [jobSetStatus_none _ _ _ _ h1]
      exact h1
    by_cases hne : t ≠ ""
    · rw [if_pos hne]
      apply hgen
      rw [findJob_videoUpsertOp]
      exact h
    · rw [if_neg hne]
      apply hgen
      exact h
  | ok a =>
    simp only []
    have hST : ∀ ST : PSt, ST.db.jobs = st.db.jobs →
        (jobSetStatus ST jid .COMPLETED none).db.findJob jid = none := by
      intro ST h1
      have h2 : ST.db.findJob jid = none := by
        rw [findJob_congr_jobs jid h1]
        exact h
      rw [jobSetStatus_none _ _ _ _ h2]
      exact h2
    apply hST
    simp only [claimsCreate_jobs, analysisCreateOp_jobs, videoUpsertOp_jobs]

/-- C1: in every modelled pipeline run that obtains a non-empty transcript
(witnessed by the analysis call on it in the trace) and ends with the Job
FAILED, the Video row keyed by the run's URL exists in the final store and
holds that transcript, and the trace contains the Video upsert with the
transcript followed by the RUNNING-to-FAILED status write, in that order. -/
theorem transcript_preserved_on_failure (env : PipeEnv) (jid url : String)
    (exVid : Option VideoRow) (db : DB) (t : String)
    (ht : ¬ t = "")
    (hobt : Ev.analyzeCall t ∈ (runPipeline env jid url exVid ⟨db, []⟩).tr)
    (hfail : ((runPipeline env jid url exVid ⟨db, []⟩).db.findJob jid).map
      (fun j => j.status) = some .FAILED) :
    (∃ i ti ch, (runPipeline env jid url exVid ⟨db, []⟩).db.findVideo url =
      some ⟨i, url, ti, ch, some t⟩) ∧
    List.Sublist [Ev.videoUpsert url (some t), Ev.statusWrite jid .RUNNING .FAILED]
      (runPipeline env jid url exVid ⟨db, []⟩).tr := by
  have hAT : ∀ (md2 : VideoMetadata) (t2 : String) (siwtM : Option SiwtMeta) (st : PSt),
      st.db = (jobSetStatus ⟨db, []⟩ jid .RUNNING none).db →
      Ev.analyzeCall t ∉ st.tr →
      Ev.analyzeCall t ∈ (afterTranscript env jid url md2 t2 siwtM st).tr →
      ((afterTranscript env jid url md2 t2 siwtM st).db.findJob jid).map
        (fun j => j.status) = some .FAILED →
      (∃ i ti ch, (afterTranscript env jid url md2 t2 siwtM st).db.findVideo url =
        some ⟨i, url, ti, ch, some t⟩) ∧
      List.Sublist [Ev.videoUpsert url (some t), Ev.statusWrite jid .RUNNING .FAILED]
        (afterTranscript env jid url md2 t2 siwtM st).tr := by
    intro md2 t2 siwtM st hdb hnoac hob hfl
    have hteq : t = t2 := by
      rcases mem_afterTranscript_tr hob with h | h | h | h
      · exact absurd h hnoac
      · simpa using h
      · rcases h with ⟨trn, htrn⟩
        simp at htrn
      · rcases h with ⟨f, s, hf⟩
        simp at hf
    subst hteq
    obtain ⟨hvid, htr⟩ := afterTranscript_failed env jid url md2 t siwtM st ht hfl
    refine ⟨hvid, ?_⟩
    cases hj0 : db.findJob jid with
    | none =>
      exfalso
      have hn : st.db.findJob jid = none := by
        rw [hdb, jobSetStatus_none ⟨db, []⟩ jid .RUNNING none hj0]
        exact hj0
      rw [afterTranscript_findJob_none env jid url md2 t siwtM st hn] at hfl
      simp at hfl
    | some j0 =>
      have hSTj : st.db.findJob jid =
          some { j0 with status := .RUNNING, errorMessage := j0.errorMessage } := by
        rw [hdb]
        exact findJob_jobSetStatus ⟨db, []⟩ jid .RUNNING none j0 hj0
      have htr2 := htr { j0 with status := .RUNNING, errorMessage := j0.errorMessage } hSTj
      rw [htr2]
      exact (List.sublist_cons_self (Ev.analyzeCall t)
        [Ev.videoUpsert url (some t), Ev.statusWrite jid .RUNNING .FAILED]).trans
        (List.sublist_append_right st.tr _)
  have hS2 : ∀ (md2 : VideoMetadata) (st : PSt),
      st.db = (jobSetStatus ⟨db, []⟩ jid .RUNNING none).db →
      Ev.analyzeCall t ∉ st.tr →
      Ev.analyzeCall t ∈ (pipelineStep2 env jid url exVid md2 st).tr →
      ((pipelineStep2 env jid url exVid md2 st).db.findJob jid).map
        (fun j => j.status) = some .FAILED →
      (∃ i ti ch, (pipelineStep2 env jid url exVid md2 st).db.findVideo url =
        some ⟨i, url, ti, ch, some t⟩) ∧
      List.Sublist [Ev.videoUpsert url (some t), Ev.statusWrite jid .RUNNING .FAILED]
        (pipelineStep2 env jid url exVid md2 st).tr := by
    intro md2 st hdb hnoac hob hfl
    have hNC :
        Ev.analyzeCall t ∈ (pipelineNoCache env jid url md2 st).tr →
        ((pipelineNoCache env jid url md2 st).db.findJob jid).map
          (fun j => j.status) = some .FAILED →
        (∃ i ti ch, (pipelineNoCache env jid url md2 st).db.findVideo url =
          some ⟨i, url, ti, ch, some t⟩) ∧
        List.Sublist [Ev.videoUpsert url (some t), Ev.statusWrite jid .RUNNING .FAILED]
          (pipelineNoCache env jid url md2 st).tr := by
      intro hob2 hfl2
      unfold pipelineNoCache at hob2 hfl2 ⊢
      cases hx : extractVideoIdVM url with
      | none =>
        exfalso
        rw [hx] at hob2
        simp only [] at hob2
        rcases mem_pipelineCatch_tr hob2 with h | h | h
        · exact hnoac h
        · rcases h with ⟨trn, htrn⟩
          simp at htrn
        · rcases h with ⟨f, hf⟩
          simp at hf
      | some vid =>
        rw [hx] at hob2 hfl2
        simp only [] at hob2
        simp only [] at hfl2
        simp only []
        cases hs : env.siwt with
        | error em =>
          exfalso
          rw [hs] at hob2
          simp only [] at hob2
          rcases mem_pipelineCatch_tr hob2 with h | h | h
          · rcases List.mem_append.1 h with h2 | h2
            · exact hnoac h2
            · simp at h2
          · rcases h with ⟨trn, htrn⟩
            simp at htrn
          · rcases h with ⟨f, hf⟩
            simp at hf
        | ok r =>
          rw [hs] at hob2 hfl2
          simp only [] at hob2
          simp only [] at hfl2
          simp only []
          refine hAT md2 r.text _ _ hdb ?_ hob2 hfl2
          intro h2
          rcases List.mem_append.1 h2 with h3 | h3
          · exact hnoac h3
          · simp at h3
    unfold pipelineStep2 at hob hfl ⊢
    cases exVid with
    | none =>
      simp only [] at hob
      simp only [] at hfl
      simp only []
      exact hNC hob hfl
    | some v =>
      simp only [] at hob
      simp only [] at hfl
      simp only []
      cases hvt : v.transcript with
      | none =>
        rw [hvt] at hob hfl
        simp only [] at hob
        simp only [] at hfl
        simp only []
        exact hNC hob hfl
      | some tc =>
        rw [hvt] at hob hfl
        simp only [] at hob
        simp only [] at hfl
        simp only []
        by_cases htc : tc ≠ ""
        · rw [if_pos htc] at hob hfl ⊢
          exact hAT md2 tc _ _ hdb hnoac hob hfl
        · rw [if_neg htc] at hob hfl ⊢
          exact hNC hob hfl
  have hnoac1 : Ev.analyzeCall t ∉
      (jobSetStatus ⟨db, []⟩ jid .RUNNING none).tr ++ [Ev.metadataCall url] := by
    intro h
    rcases List.mem_append.1 h with h2 | h2
    · rcases mem_jobSetStatus_tr h2 with h3 | h3
      · simp at h3
      · rcases h3 with ⟨f, hf⟩
        simp at hf
    · simp at h2
  unfold runPipeline at hobt hfail ⊢
  cases hm : env.metadata with
  | error m =>
    exfalso
    rw [hm] at hobt
    simp only [] at hobt
    rcases mem_pipelineCatch_tr hobt with h | h | h
    · exact hnoac1 h
    · rcases h with ⟨trn, htrn⟩
      simp at htrn
    · rcases h with ⟨f, hf⟩
      simp at hf
  | ok md =>
    rw [hm] at hobt hfail
    simp only [] at hobt
    simp only [] at hfail
    simp only []
    cases hd : md.duration with
    | none =>
      rw [hd] at hobt hfail
      simp only [] at hobt
      simp only [] at hfail
      simp only []
      exact hS2 md _ rfl hnoac1 hobt hfail
    | some d =>
      rw [hd] at hobt hfail
      simp only [] at hobt
      simp only [] at hfail
      simp only []
      by_cases hgt : 7200 < d
      · exfalso
        rw [if_pos hgt] at hobt
        rcases mem_jobSetStatus_tr hobt with h | h
        · exact hnoac1 h
        · rcases h with ⟨f, hf⟩
          simp at hf
      · rw [if_neg hgt] at hobt hfail ⊢
        exact hS2 md _ rfl hnoac1 hobt hfail

/-- C1 witness: on the concrete analysis-timeout run, the theorem yields the
cached Video row with the obtained transcript and the ordered upsert and
FAILED-write events. -/
theorem transcript_preserved_on_failure_witness :
    (∃ i ti ch, (runPipeline exEnvAFail ("vid1") ("https://youtu.be/vid1") none
      ⟨exDb0, []⟩).db.findVideo ("https://youtu.be/vid1") =
      some ⟨i, ("https://youtu.be/vid1"), ti, ch, some ("hello transcript")⟩) ∧
    List.Sublist [Ev.videoUpsert ("https://youtu.be/vid1") (some ("hello transcript")),
      Ev.statusWrite ("vid1") .RUNNING .FAILED]
      (runPipeline exEnvAFail ("vid1") ("https://youtu.be/vid1") none ⟨exDb0, []⟩).tr :=
  transcript_preserved_on_failure exEnvAFail ("vid1") ("https://youtu.be/vid1") none exDb0
    ("hello transcript") (by decide) (by decide) (by decide)

/-! ## C4: the Job status machine -/

/-- The from/to pairs of the Job status writes recorded in a trace. -/
def transitionsOf (tr : List Ev) : List (JobStatus × JobStatus) :=
  tr.filterMap (fun e => match e with
    | Ev.statusWrite _ f s => some (f, s)
    | _ => none)

/-- Modelled from the spec: the claimed transition relation
`PENDING → RUNNING → \x7bCOMPLETED, FAILED\x7d`. -/
def specTransition : JobStatus × JobStatus → Bool
  | (.PENDING, .RUNNING) => true
  | (.RUNNING, .COMPLETED) => true
  | (.RUNNING, .FAILED) => true
  | _ => false

/-- `transitionsOf` distributes over trace concatenation. -/
theorem transitionsOf_append (a b : List Ev) :
    transitionsOf (a ++ b) = transitionsOf a ++ transitionsOf b := by
  simp [transitionsOf, List.filterMap_append]

/-- Finding an id key after appending a fresh row with that id. -/
theorem find_assoc_append_new (l : List (String × JobRow)) (id : String) (row : JobRow)
    (h : l.find? (fun p => p.1 = id) = none) :
    (l ++ [(id, row)]).find? (fun p => p.1 = id) = some (id, row) := by
  rw [List.find?_append, h]
  simp [List.find?_cons_of_pos]

/-- `DB.findJob` after `DB.insertJob` of a fresh id. -/
theorem findJob_insertJob (db : DB) (id : String) (row : JobRow)
    (h : db.findJob id = none) :
    (db.insertJob id row).findJob id = some row := by
  unfold DB.findJob at h ⊢
  rw [Option.map_eq_none'] at h
  unfold DB.insertJob
  simp only []
  rw [find_assoc_append_new db.jobs id row h]
  rfl

/-- A transition recorded across `jobSetStatus` is prior or goes to the
written status. -/
theorem transitionsOf_mem_jobSetStatus {st : PSt} {jid : String} {stat : JobStatus}
    {em : Option (Option String)} {p : JobStatus × JobStatus}
    (h : p ∈ transitionsOf (jobSetStatus st jid stat em).tr) :
    p ∈ transitionsOf st.tr ∨ p.2 = stat := by
  unfold jobSetStatus at h
  cases hj : st.db.findJob jid with
  | none =>
    rw [hj] at h
    exact Or.inl h
  | some j =>
    rw [hj] at h
    simp only [] at h
    rw [transitionsOf_append] at h
    rcases List.mem_append.1 h with h2 | h2
    · exact Or.inl h2
    · right
      simp [transitionsOf] at h2
      rw [h2]

/-- `DB.findJob` transported along an equality of the job relations. -/
theorem findJob_eq_of_jobs_eq (db1 db2 : DB) (jid : String) (v : Option JobRow)
    (h1 : db1.jobs = db2.jobs) (h2 : db2.findJob jid = v) : db1.findJob jid = v := by
  rw [findJob_congr_jobs jid h1]
  exact h2

/-- Transitions recorded by `pipelineCatch` on a store holding the job row:
exactly one write, to FAILED from the row's current status. -/
theorem pipelineCatch_transitions (jid url : String) (trn : Option String)
    (siwtM : Option SiwtMeta) (md : Option VideoMetadata) (st : PSt) (msg : String)
    (jR : JobRow) (hj : st.db.findJob jid = some jR) :
    transitionsOf (pipelineCatch jid url trn siwtM md st msg).tr =
      transitionsOf st.tr ++ [(jR.status, .FAILED)] := by
  unfold pipelineCatch
  cases trn with
  | none =>
    cases md with
    | none =>
      simp only []
      refine Eq.trans (congrArg transitionsOf (jobSetStatus_tr _ jid .FAILED _ jR hj)) ?_
      rw [transitionsOf_append]
      rfl
    | some m =>
      simp only []
      refine Eq.trans (congrArg transitionsOf (jobSetStatus_tr _ jid .FAILED _ jR hj)) ?_
      rw [transitionsOf_append]
      rfl
  | some t =>
    cases md with
    | none =>
      simp only []
      refine Eq.trans (congrArg transitionsOf (jobSetStatus_tr _ jid .FAILED _ jR hj)) ?_
      rw [transitionsOf_append]
      rfl
    | some m =>
      simp only []
      by_cases hne : t ≠ ""
      · rw [if_pos hne]
        refine Eq.trans (congrArg transitionsOf (jobSetStatus_tr _ jid .FAILED _ jR ?_)) ?_
        · exact findJob_eq_of_jobs_eq _ _ jid _ (by simp only [videoUpsertOp_jobs]) hj
        · rw [videoUpsertOp_tr, transitionsOf_append, transitionsOf_append]
          simp [transitionsOf]
      · rw [if_neg hne]
        refine Eq.trans (congrArg transitionsOf (jobSetStatus_tr _ jid .FAILED _ jR hj)) ?_
        rw [transitionsOf_append]
        rfl

/-- Transitions recorded by `afterTranscript` on a store holding the job row:
one write, to COMPLETED on analysis success and to FAILED on analysis error. -/
theorem afterTranscript_transitions (env : PipeEnv) (jid url : String)
    (md : VideoMetadata) (t : String) (siwtM : Option SiwtMeta) (st : PSt)
    (jR : JobRow) (hj : st.db.findJob jid = some jR) :
    transitionsOf (afterTranscript env jid url md t siwtM st).tr =
      transitionsOf st.tr ++ [(jR.status, .COMPLETED)] ∨
    transitionsOf (afterTranscript env jid url md t siwtM st).tr =
      transitionsOf st.tr ++ [(jR.status, .FAILED)] := by
  unfold afterTranscript
  cases ha : env.analysis with
  | error m =>
    right
    simp only []
    refine Eq.trans (pipelineCatch_transitions jid url (some t) siwtM (some md) _ m jR ?_) ?_
    · exact hj
    · simp [transitionsOf_append, transitionsOf]
  | ok a =>
    left
    simp only []
    refine Eq.trans (congrArg transitionsOf (jobSetStatus_tr _ jid .COMPLETED none jR ?_)) ?_
    · exact findJob_eq_of_jobs_eq _ _ jid _
        (by simp only [claimsCreate_jobs, analysisCreateOp_jobs, videoUpsertOp_jobs]) hj
    · simp only [analysisCreateOp_tr, videoUpsertOp_tr, transitionsOf_append]
      simp [transitionsOf]

/-- Transitions recorded by the cache-miss acquisition stage. -/
theorem pipelineNoCache_transitions (env : PipeEnv) (jid url : String)
    (md : VideoMetadata) (st : PSt) (jR : JobRow)
    (hj : st.db.findJob jid = some jR) :
    transitionsOf (pipelineNoCache env jid url md st).tr =
      transitionsOf st.tr ++ [(jR.status, .COMPLETED)] ∨
    transitionsOf (pipelineNoCache env jid url md st).tr =
      transitionsOf st.tr ++ [(jR.status, .FAILED)] := by
  unfold pipelineNoCache
  cases hx : extractVideoIdVM url with
  | none =>
    right
    simp only []
    exact pipelineCatch_transitions jid url none none (some md) st _ jR hj
  | some vid =>
    simp only []
    cases hs : env.siwt with
    | ok r =>
      simp only []
      have key := afterTranscript_transitions env jid url md r.text
        (some ⟨r.text, md.title, md.channel, r.language, r.source⟩)
        ⟨st.db, st.tr ++ [Ev.detectCall, Ev.siwtCall vid
          (detectLanguage "" (some ⟨md.title, md.description⟩)).languageCode]⟩ jR hj
      have hst2 : transitionsOf ((⟨st.db, st.tr ++ [Ev.detectCall, Ev.siwtCall vid
          (detectLanguage "" (some ⟨md.title, md.description⟩)).languageCode]⟩ : PSt).tr) =
          transitionsOf st.tr := by
        simp [transitionsOf_append, transitionsOf]
      rw [hst2] at key
      exact key
    | error em =>
      right
      simp only []
      have key := pipelineCatch_transitions jid url none none (some md)
        ⟨st.db, st.tr ++ [Ev.detectCall, Ev.siwtCall vid
          (detectLanguage "" (some ⟨md.title, md.description⟩)).languageCode]⟩
        (if jsIncludes em ("413 Request Entity Too Large") ||
            jsIncludes em ("Video too long for ASR fallback") then
          tooLongMsg (durationMinutesStr md.duration)
         else "SIWT Media Worker failed: " ++ em)
        jR hj
      have hst2 : transitionsOf ((⟨st.db, st.tr ++ [Ev.detectCall, Ev.siwtCall vid
          (detectLanguage "" (some ⟨md.title, md.description⟩)).languageCode]⟩ : PSt).tr) =
          transitionsOf st.tr := by
        simp [transitionsOf_append, transitionsOf]
      rw [hst2] at key
      exact key

/-- Transitions recorded by step 2 of the pipeline (cache reuse or
acquisition). -/
theorem pipelineStep2_transitions (env : PipeEnv) (jid url : String)
    (exv : Option VideoRow) (md : VideoMetadata) (st : PSt) (jR : JobRow)
    (hj : st.db.findJob jid = some jR) :
    transitionsOf (pipelineStep2 env jid url exv md st).tr =
      transitionsOf st.tr ++ [(jR.status, .COMPLETED)] ∨
    transitionsOf (pipelineStep2 env jid url exv md st).tr =
      transitionsOf st.tr ++ [(jR.status, .FAILED)] := by
  unfold pipelineStep2
  cases exv with
  | none =>
    simp only []
    exact pipelineNoCache_transitions env jid url md st jR hj
  | some v =>
    simp only []
    cases hvt : v.transcript with
    | none =>
      simp only []
      exact pipelineNoCache_transitions env jid url md st jR hj
    | some tc =>
      simp only []
      by_cases htc : tc ≠ ""
      · rw [if_pos htc]
        exact afterTranscript_transitions env jid url md tc _ st jR hj
      · rw [if_neg htc]
        exact pipelineNoCache_transitions env jid url md st jR hj

/-- Transitions recorded by one full pipeline run on a store holding the job
row: the RUNNING write from the row's status, then one terminal write. -/
theorem runPipeline_transitions (env : PipeEnv) (jid url : String)
    (exv : Option VideoRow) (st0 : PSt) (j : JobRow)
    (hj : st0.db.findJob jid = some j) :
    transitionsOf (runPipeline env jid url exv st0).tr =
      transitionsOf st0.tr ++ [(j.status, .RUNNING), (.RUNNING, .COMPLETED)] ∨
    transitionsOf (runPipeline env jid url exv st0).tr =
      transitionsOf st0.tr ++ [(j.status, .RUNNING), (.RUNNING, .FAILED)] := by
  unfold runPipeline
  have hj1 : (jobSetStatus st0 jid .RUNNING none).db.findJob jid =
      some { j with status := .RUNNING, errorMessage := j.errorMessage } :=
    findJob_jobSetStatus st0 jid .RUNNING none j hj
  have htr1 : (jobSetStatus st0 jid .RUNNING none).tr =
      st0.tr ++ [Ev.statusWrite jid j.status .RUNNING] :=
    jobSetStatus_tr st0 jid .RUNNING none j hj
  have htr1b : transitionsOf ((jobSetStatus st0 jid .RUNNING none).tr ++
      [Ev.metadataCall url]) = transitionsOf st0.tr ++ [(j.status, .RUNNING)] := by
    rw [htr1]
    simp [transitionsOf_append, transitionsOf]
  cases hm : env.metadata with
  | error m =>
    right
    simp only []
    have key := pipelineCatch_transitions jid url none none none
      ⟨(jobSetStatus st0 jid .RUNNING none).db,
       (jobSetStatus st0 jid .RUNNING none).tr ++ [Ev.metadataCall url]⟩ m
      { j with status := .RUNNING, errorMessage := j.errorMessage } hj1
    simp only [] at key
    rw [htr1b] at key
    rw [List.append_assoc] at key
    exact key
  | ok md =>
    simp only []
    cases hd : md.duration with
    | none =>
      simp only []
      have key := pipelineStep2_transitions env jid url exv md
        ⟨(jobSetStatus st0 jid .RUNNING none).db,
         (jobSetStatus st0 jid .RUNNING none).tr ++ [Ev.metadataCall url]⟩
        { j with status := .RUNNING, errorMessage := j.errorMessage } hj1
      simp only [] at key
      rw [htr1b] at key
      rcases key with k | k
      · left
        rw [List.append_assoc] at k
        exact k
      · right
        rw [List.append_assoc] at k
        exact k
    | some d =>
      simp only []
      by_cases hgt : 7200 < d
      · right
        rw [if_pos hgt]
        refine Eq.trans (congrArg transitionsOf (jobSetStatus_tr _ jid .FAILED _
          { j with status := .RUNNING, errorMessage := j.errorMessage } ?_)) ?_
        · exact hj1
        · rw [htr1]
          simp [transitionsOf_append, transitionsOf]
      · rw [if_neg hgt]
        have key := pipelineStep2_transitions env jid url exv md
          ⟨(jobSetStatus st0 jid .RUNNING none).db,
           (jobSetStatus st0 jid .RUNNING none).tr ++ [Ev.metadataCall url]⟩
          { j with status := .RUNNING, errorMessage := j.errorMessage } hj1
        simp only [] at key
        rw [htr1b] at key
        rcases key with k | k
        · left
          rw [List.append_assoc] at k
          exact k
        · right
          rw [List.append_assoc] at k
          exact k

/-- Membership form of `runPipeline_transitions` for a PENDING row. -/
theorem runPipeline_transitions_mem (env : PipeEnv) (jid url : String)
    (exv : Option VideoRow) (st0 : PSt) (j : JobRow)
    (hj : st0.db.findJob jid = some j) (hjs : j.status = .PENDING)
    (hbase : ∀ p ∈ transitionsOf st0.tr,
      p.2 = JobStatus.PENDING ∨ specTransition p = true) :
    ∀ p ∈ transitionsOf (runPipeline env jid url exv st0).tr,
      p.2 = JobStatus.PENDING ∨ specTransition p = true := by
  intro p hp
  rcases runPipeline_transitions env jid url exv st0 j hj with k | k
  · rw [k] at hp
    rcases List.mem_append.1 hp with h | h
    · exact hbase p h
    · right
      simp at h
      rcases h with h | h
      · rw [h, hjs]
        rfl
      · rw [h]
        rfl
  · rw [k] at hp
    rcases List.mem_append.1 hp with h | h
    · exact hbase p h
    · right
      simp at h
      rcases h with h | h
      · rw [h, hjs]
        rfl
      · rw [h]
        rfl

/-- Transitions recorded past the submit dedup checks: at most a reset of the
existing row to PENDING, then the pipeline's machine transitions. -/
theorem submitProceed_transitions (env : SubmitEnv) (url : String) (db : DB)
    (jobId : String) :
    ∀ p ∈ transitionsOf (submitProceed env url db jobId).st.tr,
      p.2 = JobStatus.PENDING ∨ specTransition p = true := by
  unfold submitProceed
  simp only []
  cases hj : db.findJob jobId with
  | some j =>
    simp only []
    refine runPipeline_transitions_mem env.pipe jobId url _ _
      { j with status := .PENDING, videoUrl := url, errorMessage := none } ?_ rfl ?_
    · have h1 : db.findJob jobId = some j := hj
      have h2 := findJob_setJob db jobId
        { j with status := .PENDING, videoUrl := url, errorMessage := none }
      rw [h1] at h2
      exact h2
    · intro p hp
      left
      simp [transitionsOf] at hp
      rw [hp]
  | none =>
    simp only []
    refine runPipeline_transitions_mem env.pipe jobId url _ _
      ⟨.PENDING, url, none⟩ ?_ rfl ?_
    · exact findJob_insertJob db jobId ⟨.PENDING, url, none⟩ hj
    · intro p hp
      simp [transitionsOf] at hp

/-- Every transition recorded by the main retry flow goes to RUNNING or to
COMPLETED. -/
theorem retryMain_transitions (env : RetryEnv) (jid : String) (job : JobRow)
    (an : AnalysisRow) (video : VideoRow) (t : String) (db : DB) :
    ∀ p ∈ transitionsOf (retryMain env jid job an video t db).tr,
      p.2 = JobStatus.RUNNING ∨ p.2 = JobStatus.COMPLETED := by
  have hcatch : ∀ (st : PSt) (msg : String),
      (∀ p ∈ transitionsOf st.tr,
        p.2 = JobStatus.RUNNING ∨ p.2 = JobStatus.COMPLETED) →
      ∀ p ∈ transitionsOf (retryCatch jid st msg).tr,
        p.2 = JobStatus.RUNNING ∨ p.2 = JobStatus.COMPLETED := by
    intro st msg hbase p hp
    unfold retryCatch at hp
    simp only [] at hp
    rcases transitionsOf_mem_jobSetStatus hp with h | h
    · exact hbase p h
    · exact Or.inr h
  have hst0base : ∀ p ∈ transitionsOf ((⟨db, [Ev.detectCall]⟩ : PSt).tr),
      p.2 = JobStatus.RUNNING ∨ p.2 = JobStatus.COMPLETED := by
    intro p hp
    simp [transitionsOf] at hp
  have hst2base : ∀ p ∈ transitionsOf
      ((jobSetStatus ⟨db, [Ev.detectCall]⟩ jid .RUNNING (some none)).tr ++
        [Ev.analyzeCall t]),
      p.2 = JobStatus.RUNNING ∨ p.2 = JobStatus.COMPLETED := by
    intro p hp
    rw [transitionsOf_append] at hp
    rcases List.mem_append.1 hp with h | h
    · rcases transitionsOf_mem_jobSetStatus h with h2 | h2
      · simp [transitionsOf] at h2
      · exact Or.inl h2
    · simp [transitionsOf] at h
  intro p hp
  unfold retryMain at hp
  cases hd : env.detect with
  | error m =>
    rw [hd] at hp
    simp only [] at hp
    exact hcatch _ m hst0base p hp
  | ok u =>
    rw [hd] at hp
    simp only [] at hp
    cases ho : (analyzeTranscript env.llm t job.videoUrl (some ⟨video.title, none⟩)).output with
    | error m =>
      rw [ho] at hp
      simp only [] at hp
      exact hcatch _ m hst2base p hp
    | ok av =>
      rw [ho] at hp
      simp only [] at hp
      by_cases hmr : missingRequired av.parsed = true
      · rw [if_pos hmr] at hp
        exact hcatch _ _ hst2base p hp
      · rw [if_neg hmr] at hp
        cases hc : av.parsed.claims with
        | none =>
          rw [hc] at hp
          simp only [] at hp
          exact hcatch _ _ hst2base p hp
        | some cs =>
          rw [hc] at hp
          simp only [] at hp
          rcases transitionsOf_mem_jobSetStatus hp with h | h
          · exact hst2base p h
          · exact Or.inr h

/-- Every transition recorded by the retry route goes to RUNNING or to
COMPLETED. -/
theorem retryPOST_transitions (env : RetryEnv) (jobId : Option String) (db : DB) :
    ∀ p ∈ transitionsOf (retryPOST env jobId db).tr,
      p.2 = JobStatus.RUNNING ∨ p.2 = JobStatus.COMPLETED := by
  intro p hp
  unfold retryPOST at hp
  cases jobId with
  | none => simp [transitionsOf] at hp
  | some jid =>
    simp only [] at hp
    by_cases hjz : jid = ""
    · rw [if_pos hjz] at hp
      simp [transitionsOf] at hp
    · rw [if_neg hjz] at hp
      cases h1 : db.findJob jid with
      | none =>
        rw [h1] at hp
        simp [transitionsOf] at hp
      | some job =>
        rw [h1] at hp
        simp only [] at hp
        cases h2 : db.findAnalysisByJob jid with
        | none =>
          rw [h2] at hp
          simp [transitionsOf] at hp
        | some an =>
          rw [h2] at hp
          simp only [] at hp
          cases h3 : db.findVideoById an.videoId with
          | none =>
            rw [h3] at hp
            simp [transitionsOf] at hp
          | some video =>
            rw [h3] at hp
            simp only [] at hp
            cases h4 : video.transcript with
            | none =>
              rw [h4] at hp
              simp [transitionsOf] at hp
            | some t =>
              rw [h4] at hp
              simp only [] at hp
              by_cases h5 : t = ""
              · rw [if_pos h5] at hp
                simp [transitionsOf] at hp
              · rw [if_neg h5] at hp
                exact retryMain_transitions env jid job an video t db p hp

/-- Every transition recorded by the health maintenance endpoint force-fails
a row that was PENDING or RUNNING. -/
theorem healthPOST_transitions (action : String) (jobIds : Option (List String))
    (db : DB) :
    ∀ p ∈ transitionsOf (healthPOST action jobIds db).tr,
      (p.1 = JobStatus.PENDING ∨ p.1 = JobStatus.RUNNING) ∧
        p.2 = JobStatus.FAILED := by
  intro p hp
  unfold healthPOST at hp
  by_cases ha : action = "mark_failed"
  · rw [if_pos ha] at hp
    cases jobIds with
    | none => simp [transitionsOf] at hp
    | some ids =>
      simp only [] at hp
      unfold transitionsOf at hp
      rw [List.filterMap_map] at hp
      rcases List.mem_filterMap.1 hp with ⟨q, hq, he⟩
      have he2 : some (q.2.status, JobStatus.FAILED) = some p := he
      have he3 : p = (q.2.status, JobStatus.FAILED) := (Option.some.inj he2).symm
      rw [List.mem_filter] at hq
      have hcond := of_decide_eq_true hq.2
      rw [he3]
      rcases hcond.2 with h | h
      · exact ⟨Or.inr h, rfl⟩
      · exact ⟨Or.inl h, rfl⟩
  · rw [if_neg ha] at hp
    simp [transitionsOf] at hp

/-- Every transition recorded by the submit endpoint is a reset of an existing
row to PENDING or a transition of the claimed machine. -/
theorem submitPOST_transitions (env : SubmitEnv) (url : String) (db : DB) :
    ∀ p ∈ transitionsOf (submitPOST env url db).st.tr,
      p.2 = JobStatus.PENDING ∨ specTransition p = true := by
  intro p hp
  unfold submitPOST at hp
  by_cases hv : ¬ (jsIncludes url ("youtube.com") || jsIncludes url ("youtu.be")) = true
  · rw [if_pos hv] at hp
    simp [transitionsOf] at hp
  · rw [if_neg hv] at hp
    by_cases hk : ¬ env.apiKeyPresent = true
    · rw [if_pos hk] at hp
      simp [transitionsOf] at hp
    · rw [if_neg hk] at hp
      simp only [] at hp
      cases hj : db.findJob (generateJobId env.uuid url) with
      | none =>
        rw [hj] at hp
        simp only [] at hp
        exact submitProceed_transitions env url db (generateJobId env.uuid url) p hp
      | some j =>
        rw [hj] at hp
        simp only [] at hp
        by_cases h1 : j.status = .COMPLETED ∧
            (db.findAnalysisByJob (generateJobId env.uuid url)).isSome = true
        · rw [if_pos h1] at hp
          simp [transitionsOf] at hp
        · rw [if_neg h1] at hp
          by_cases h2 : j.status = .PENDING ∨ j.status = .RUNNING
          · rw [if_pos h2] at hp
            simp [transitionsOf] at hp
          · rw [if_neg h2] at hp
            exact submitProceed_transitions env url db (generateJobId env.uuid url) p hp

/-- C4 counterexample: the health maintenance endpoint records a
PENDING→FAILED status write on a PENDING job — a transition outside the
claimed machine PENDING→RUNNING→\x7bCOMPLETED, FAILED\x7d. -/
theorem health_pending_to_failed :
    (JobStatus.PENDING, JobStatus.FAILED) ∈
      transitionsOf (healthPOST ("mark_failed") (some [("vid1")]) exDb0).tr ∧
    specTransition (JobStatus.PENDING, JobStatus.FAILED) = false := by decide

/-- C3: code bug — a retry that fails after the in-place Result update (here
the re-analysis parses with no claims array, so the claims iteration throws
after the deletes) answers 500 and restores the Job to COMPLETED, but the
previously stored Result has already been overwritten and the prior Claims
and SpotChecks have already been deleted: the route runs its writes outside
any transaction, so a mid-retry failure is destructive, contradicting the
claimed byte-for-byte restoration. -/
theorem retry_failure_destroys_prior_result :
    (retryPOST exRetryEnvNoClaims (some ("vid1")) exDbDone).resp.status = 500 ∧
    ((retryPOST exRetryEnvNoClaims (some ("vid1")) exDbDone).db.findJob ("vid1")).map
      (fun j => j.status) = some .COMPLETED ∧
    exDbDone.analyses.map (fun a => a.oneLiner) = [("old")] ∧
    (retryPOST exRetryEnvNoClaims (some ("vid1")) exDbDone).db.analyses.map
      (fun a => a.oneLiner) = [("new")] ∧
    ¬ exDbDone.claims = [] ∧
    (retryPOST exRetryEnvNoClaims (some ("vid1")) exDbDone).db.claims = [] ∧
    ¬ exDbDone.spotChecks = [] ∧
    (retryPOST exRetryEnvNoClaims (some ("vid1")) exDbDone).db.spotChecks = [] := by
  decide

/-! ## The detached 4.5-minute timeout handler (submit route), and the timed
pipeline it interleaves with.

The handler is armed right after the RUNNING write and cleared just before
the terminal write of the success path and on entry to the catch; the
duration short-circuit returns without clearing it.  Its only store effect is
one unconditional FAILED write on the job row.  Because no other job-row
write happens between the RUNNING write and the terminal write, every
interleaving of the single timer firing yields the same sequence of job
status writes as a firing placed immediately before the terminal write
(in the duration path, where the uncleared timer fires after the final
write, both orders give the FAILED-to-FAILED pair as well); the timed model
below places the firing at that canonical point, with `timerFires` saying
whether the timer fired at all.  Positions of the timer write relative to
non-status events (such as the catch's Video upsert) are not preserved by
this canonical choice; only job status writes are. -/

/-- The timeout handler's error message. -/
def timeoutMsg : String := "Job timed out after 4.5 minutes (Vercel limit)"

/-- Terminal job write preceded by the optional timer firing. -/
def terminalWrite (timerFires : Bool) (jid : String) (stat : JobStatus)
    (em : Option (Option String)) (st : PSt) : PSt :=
  if timerFires then
    jobSetStatus (jobSetStatus st jid .FAILED (some (some timeoutMsg))) jid stat em
  else jobSetStatus st jid stat em

/-- Status-write pairs contributed by a terminal write from `fromStatus`. -/
def terminalPairs (timerFires : Bool) (fromStatus stat : JobStatus) :
    List (JobStatus × JobStatus) :=
  if timerFires then [(fromStatus, .FAILED), (.FAILED, stat)]
  else [(fromStatus, stat)]

/-- `pipelineCatch` with the timed terminal write. -/
def pipelineCatchT (timerFires : Bool) (jobId url : String)
    (transcript : Option String) (siwtM : Option SiwtMeta)
    (md : Option VideoMetadata) (st : PSt) (msg : String) : PSt :=
  let st1 :=
    match transcript, md with
    | some t, some m =>
      if t ≠ "" then
        (videoUpsertOp st url (jsOrOpt (siwtM.bind (fun s => s.title)) m.title)
          (jsOrOpt (siwtM.bind (fun s => s.channel)) m.channel) (some t)).1
      else st
    | _, _ => st
  terminalWrite timerFires jobId .FAILED (some (some msg)) st1

/-- `afterTranscript` with the timed terminal write. -/
def afterTranscriptT (timerFires : Bool) (env : PipeEnv) (jobId url : String)
    (md : VideoMetadata) (t : String) (siwtM : Option SiwtMeta) (st : PSt) : PSt :=
  let sta := { st with tr := st.tr ++ [Ev.analyzeCall t] }
  match env.analysis with
  | .error m => pipelineCatchT timerFires jobId url (some t) siwtM (some md) sta m
  | .ok a =>
    let finalTitle := jsOrOpt (siwtM.bind (fun s => s.title)) md.title
    let finalChannel := jsOrOpt (siwtM.bind (fun s => s.channel)) md.channel
    let p1 := videoUpsertOp sta url finalTitle finalChannel (some t)
    let p2 := analysisCreateOp p1.1 jobId p1.2 a
    let st4 : PSt := { p2.1 with db := claimsCreate p2.2 a.claims p2.1.db }
    terminalWrite timerFires jobId .COMPLETED none st4

/-- `pipelineNoCache` with the timed terminal writes. -/
def pipelineNoCacheT (timerFires : Bool) (env : PipeEnv) (jobId url : String)
    (md : VideoMetadata) (st1 : PSt) : PSt :=
  match extractVideoIdVM url with
  | none =>
    pipelineCatchT timerFires jobId url none none (some md) st1
      ("Could not extract video ID from URL: " ++ url)
  | some vid =>
    let li := detectLanguage "" (some ⟨md.title, md.description⟩)
    let st2 := { st1 with tr := st1.tr ++ [Ev.detectCall, Ev.siwtCall vid li.languageCode] }
    match env.siwt with
    | .ok r =>
      afterTranscriptT timerFires env jobId url md r.text
        (some ⟨r.text, md.title, md.channel, r.language, r.source⟩) st2
    | .error em =>
      let msg :=
        if jsIncludes em ("413 Request Entity Too Large") ||
           jsIncludes em ("Video too long for ASR fallback") then
          tooLongMsg (durationMinutesStr md.duration)
        else "SIWT Media Worker failed: " ++ em
      pipelineCatchT timerFires jobId url none none (some md) st2 msg

/-- `pipelineStep2` with the timed terminal writes. -/
def pipelineStep2T (timerFires : Bool) (env : PipeEnv) (jobId url : String)
    (existingVideo : Option VideoRow) (md : VideoMetadata) (st1 : PSt) : PSt :=
  match existingVideo with
  | some v =>
    match v.transcript with
    | some t =>
      if t ≠ "" then
        afterTranscriptT timerFires env jobId url md t
          (some ⟨t, jsOrOpt v.title md.title, jsOrOpt v.channel md.channel, "en", "cached"⟩) st1
      else pipelineNoCacheT timerFires env jobId url md st1
    | none => pipelineNoCacheT timerFires env jobId url md st1
  | none => pipelineNoCacheT timerFires env jobId url md st1

/-- The background worker with the detached timeout handler modelled:
`timerFires` says whether the armed timer fired before being cleared (or, in
the duration path, at all). -/
def runPipelineTimed (env : PipeEnv) (timerFires : Bool) (jobId url : String)
    (existingVideo : Option VideoRow) (st0 : PSt) : PSt :=
  let st1 := jobSetStatus st0 jobId .RUNNING none
  let st1b := { st1 with tr := st1.tr ++ [Ev.metadataCall url] }
  match env.metadata with
  | .error m => pipelineCatchT timerFires jobId url none none none st1b m
  | .ok md =>
    match md.duration with
    | some d =>
      if d > 7200 then
        terminalWrite timerFires jobId .FAILED
          (some (some (tooLongMsg (toString (jsRoundDiv60 d))))) st1b
      else pipelineStep2T timerFires env jobId url existingVideo md st1b
    | none => pipelineStep2T timerFires env jobId url existingVideo md st1b

/-- `submitProceed` launching the timed background run. -/
def submitProceedT (env : SubmitEnv) (timerFires : Bool) (url : String)
    (db : DB) (jobId : String) : SubmitOut :=
  let existingVideo := db.findVideo url
  let st1 : PSt := ⟨db, [Ev.videoFind url]⟩
  let st2 :=
    match st1.db.findJob jobId with
    | some j =>
      { db := st1.db.setJob jobId { j with status := .PENDING, videoUrl := url, errorMessage := none },
        tr := st1.tr ++ [Ev.statusWrite jobId j.status .PENDING] }
    | none => { st1 with db := st1.db.insertJob jobId ⟨.PENDING, url, none⟩ }
  let st3 := runPipelineTimed env.pipe timerFires jobId url existingVideo st2
  ⟨⟨202, some jobId, none⟩, st3, true⟩

/-- The submit handler launching the timed background run. -/
def submitPOSTT (env : SubmitEnv) (timerFires : Bool) (url : String)
    (db : DB) : SubmitOut :=
  if ¬ (jsIncludes url ("youtube.com") || jsIncludes url ("youtu.be")) then
    ⟨⟨400, none, some ("Please provide a valid YouTube URL")⟩, ⟨db, []⟩, false⟩
  else if ¬ env.apiKeyPresent then
    ⟨⟨500, none, some ("Server configuration error")⟩, ⟨db, []⟩, false⟩
  else
    let jobId := generateJobId env.uuid url
    match db.findJob jobId with
    | some j =>
      if j.status = .COMPLETED ∧ (db.findAnalysisByJob jobId).isSome then
        ⟨⟨200, some jobId, none⟩, ⟨db, []⟩, false⟩
      else if j.status = .PENDING ∨ j.status = .RUNNING then
        ⟨⟨202, some jobId, none⟩, ⟨db, []⟩, false⟩
      else submitProceedT env timerFires url db jobId
    | none => submitProceedT env timerFires url db jobId

/-- Transitions recorded by a timed terminal write on a store holding the job
row. -/
theorem terminalWrite_transitions (timerFires : Bool) (jid : String)
    (stat : JobStatus) (em : Option (Option String)) (st : PSt) (jR : JobRow)
    (hj : st.db.findJob jid = some jR) :
    transitionsOf (terminalWrite timerFires jid stat em st).tr =
      transitionsOf st.tr ++ terminalPairs timerFires jR.status stat := by
  unfold terminalWrite terminalPairs
  cases timerFires with
  | false =>
    refine Eq.trans (congrArg transitionsOf (jobSetStatus_tr st jid stat em jR hj)) ?_
    rw [transitionsOf_append]
    rfl
  | true =>
    refine Eq.trans (congrArg transitionsOf (jobSetStatus_tr _ jid stat em
      { jR with status := .FAILED, errorMessage := some timeoutMsg } ?_)) ?_
    · exact findJob_jobSetStatus st jid .FAILED (some (some timeoutMsg)) jR hj
    · rw [jobSetStatus_tr st jid .FAILED (some (some timeoutMsg)) jR hj]
      rw [transitionsOf_append, transitionsOf_append]
      simp [transitionsOf]

/-- Transitions recorded by the timed catch on a store holding the job row. -/
theorem pipelineCatchT_transitions (timerFires : Bool) (jid url : String)
    (trn : Option String) (siwtM : Option SiwtMeta) (md : Option VideoMetadata)
    (st : PSt) (msg : String) (jR : JobRow) (hj : st.db.findJob jid = some jR) :
    transitionsOf (pipelineCatchT timerFires jid url trn siwtM md st msg).tr =
      transitionsOf st.tr ++ terminalPairs timerFires jR.status .FAILED := by
  unfold pipelineCatchT
  cases trn with
  | none =>
    cases md with
    | none =>
      simp only []
      exact terminalWrite_transitions timerFires jid .FAILED _ st jR hj
    | some m =>
      simp only []
      exact terminalWrite_transitions timerFires jid .FAILED _ st jR hj
  | some t =>
    cases md with
    | none =>
      simp only []
      exact terminalWrite_transitions timerFires jid .FAILED _ st jR hj
    | some m =>
      simp only []
      by_cases hne : t ≠ ""
      · rw [if_pos hne]
        refine Eq.trans (terminalWrite_transitions timerFires jid .FAILED _ _ jR ?_) ?_
        · exact findJob_eq_of_jobs_eq _ _ jid _ (by simp only [videoUpsertOp_jobs]) hj
        · rw [videoUpsertOp_tr, transitionsOf_append]
          simp [transitionsOf]
      · rw [if_neg hne]
        exact terminalWrite_transitions timerFires jid .FAILED _ st jR hj

/-- Transitions recorded by the timed post-transcript stage. -/
theorem afterTranscriptT_transitions (timerFires : Bool) (env : PipeEnv)
    (jid url : String) (md : VideoMetadata) (t : String) (siwtM : Option SiwtMeta)
    (st : PSt) (jR : JobRow) (hj : st.db.findJob jid = some jR) :
    transitionsOf (afterTranscriptT timerFires env jid url md t siwtM st).tr =
      transitionsOf st.tr ++ terminalPairs timerFires jR.status .COMPLETED ∨
    transitionsOf (afterTranscriptT timerFires env jid url md t siwtM st).tr =
      transitionsOf st.tr ++ terminalPairs timerFires jR.status .FAILED := by
  unfold afterTranscriptT
  cases ha : env.analysis with
  | error m =>
    right
    simp only []
    refine Eq.trans (pipelineCatchT_transitions timerFires jid url (some t) siwtM
      (some md) _ m jR ?_) ?_
    · exact hj
    · simp [transitionsOf_append, transitionsOf]
  | ok a =>
    left
    simp only []
    refine Eq.trans (terminalWrite_transitions timerFires jid .COMPLETED none _ jR ?_) ?_
    · exact findJob_eq_of_jobs_eq _ _ jid _
        (by simp only [claimsCreate_jobs, analysisCreateOp_jobs, videoUpsertOp_jobs]) hj
    · simp only [analysisCreateOp_tr, videoUpsertOp_tr, transitionsOf_append]
      simp [transitionsOf]

/-- Transitions recorded by the timed cache-miss acquisition stage. -/
theorem pipelineNoCacheT_transitions (timerFires : Bool) (env : PipeEnv)
    (jid url : String) (md : VideoMetadata) (st : PSt) (jR : JobRow)
    (hj : st.db.findJob jid = some jR) :
    transitionsOf (pipelineNoCacheT timerFires env jid url md st).tr =
      transitionsOf st.tr ++ terminalPairs timerFires jR.status .COMPLETED ∨
    transitionsOf (pipelineNoCacheT timerFires env jid url md st).tr =
      transitionsOf st.tr ++ terminalPairs timerFires jR.status .FAILED := by
  unfold pipelineNoCacheT
  cases hx : extractVideoIdVM url with
  | none =>
    right
    simp only []
    exact pipelineCatchT_transitions timerFires jid url none none (some md) st _ jR hj
  | some vid =>
    simp only []
    cases hs : env.siwt with
    | ok r =>
      simp only []
      have key := afterTranscriptT_transitions timerFires env jid url md r.text
        (some ⟨r.text, md.title, md.channel, r.language, r.source⟩)
        ⟨st.db, st.tr ++ [Ev.detectCall, Ev.siwtCall vid
          (detectLanguage "" (some ⟨md.title, md.description⟩)).languageCode]⟩ jR hj
      have hst2 : transitionsOf ((⟨st.db, st.tr ++ [Ev.detectCall, Ev.siwtCall vid
          (detectLanguage "" (some ⟨md.title, md.description⟩)).languageCode]⟩ : PSt).tr) =
          transitionsOf st.tr := by
        simp [transitionsOf_append, transitionsOf]
      rw [hst2] at key
      exact key
    | error em =>
      right
      simp only []
      have key := pipelineCatchT_transitions timerFires jid url none none (some md)
        ⟨st.db, st.tr ++ [Ev.detectCall, Ev.siwtCall vid
          (detectLanguage "" (some ⟨md.title, md.description⟩)).languageCode]⟩
        (if jsIncludes em ("413 Request Entity Too Large") ||
            jsIncludes em ("Video too long for ASR fallback") then
          tooLongMsg (durationMinutesStr md.duration)
         else "SIWT Media Worker failed: " ++ em)
        jR hj
      have hst2 : transitionsOf ((⟨st.db, st.tr ++ [Ev.detectCall, Ev.siwtCall vid
          (detectLanguage "" (some ⟨md.title, md.description⟩)).languageCode]⟩ : PSt).tr) =
          transitionsOf st.tr := by
        simp [transitionsOf_append, transitionsOf]
      rw [hst2] at key
      exact key

/-- Transitions recorded by the timed step 2. -/
theorem pipelineStep2T_transitions (timerFires : Bool) (env : PipeEnv)
    (jid url : String) (exv : Option VideoRow) (md : VideoMetadata) (st : PSt)
    (jR : JobRow) (hj : st.db.findJob jid = some jR) :
    transitionsOf (pipelineStep2T timerFires env jid url exv md st).tr =
      transitionsOf st.tr ++ terminalPairs timerFires jR.status .COMPLETED ∨
    transitionsOf (pipelineStep2T timerFires env jid url exv md st).tr =
      transitionsOf st.tr ++ terminalPairs timerFires jR.status .FAILED := by
  unfold pipelineStep2T
  cases exv with
  | none =>
    simp only []
    exact pipelineNoCacheT_transitions timerFires env jid url md st jR hj
  | some v =>
    simp only []
    cases hvt : v.transcript with
    | none =>
      simp only []
      exact pipelineNoCacheT_transitions timerFires env jid url md st jR hj
    | some tc =>
      simp only []
      by_cases htc : tc ≠ ""
      · rw [if_pos htc]
        exact afterTranscriptT_transitions timerFires env jid url md tc _ st jR hj
      · rw [if_neg htc]
        exact pipelineNoCacheT_transitions timerFires env jid url md st jR hj

/-- Transitions recorded by one full timed pipeline run on a store holding
the job row. -/
theorem runPipelineTimed_transitions (env : PipeEnv) (timerFires : Bool)
    (jid url : String) (exv : Option VideoRow) (st0 : PSt) (j : JobRow)
    (hj : st0.db.findJob jid = some j) :
    transitionsOf (runPipelineTimed env timerFires jid url exv st0).tr =
      transitionsOf st0.tr ++
        ((j.status, .RUNNING) :: terminalPairs timerFires .RUNNING .COMPLETED) ∨
    transitionsOf (runPipelineTimed env timerFires jid url exv st0).tr =
      transitionsOf st0.tr ++
        ((j.status, .RUNNING) :: terminalPairs timerFires .RUNNING .FAILED) := by
  unfold runPipelineTimed
  have hj1 : (jobSetStatus st0 jid .RUNNING none).db.findJob jid =
      some { j with status := .RUNNING, errorMessage := j.errorMessage } :=
    findJob_jobSetStatus st0 jid .RUNNING none j hj
  have htr1 : (jobSetStatus st0 jid .RUNNING none).tr =
      st0.tr ++ [Ev.statusWrite jid j.status .RUNNING] :=
    jobSetStatus_tr st0 jid .RUNNING none j hj
  have htr1b : transitionsOf ((jobSetStatus st0 jid .RUNNING none).tr ++
      [Ev.metadataCall url]) = transitionsOf st0.tr ++ [(j.status, .RUNNING)] := by
    rw [htr1]
    simp [transitionsOf_append, transitionsOf]
  cases hm : env.metadata with
  | error m =>
    right
    simp only []
    have key := pipelineCatchT_transitions timerFires jid url none none none
      ⟨(jobSetStatus st0 jid .RUNNING none).db,
       (jobSetStatus st0 jid .RUNNING none).tr ++ [Ev.metadataCall url]⟩ m
      { j with status := .RUNNING, errorMessage := j.errorMessage } hj1
    simp only [] at key
    rw [htr1b] at key
    rw [List.append_assoc] at key
    exact key
  | ok md =>
    simp only []
    cases hd : md.duration with
    | none =>
      simp only []
      have key := pipelineStep2T_transitions timerFires env jid url exv md
        ⟨(jobSetStatus st0 jid .RUNNING none).db,
         (jobSetStatus st0 jid .RUNNING none).tr ++ [Ev.metadataCall url]⟩
        { j with status := .RUNNING, errorMessage := j.errorMessage } hj1
      simp only [] at key
      rw [htr1b] at key
      rcases key with k | k
      · left
        rw [List.append_assoc] at k
        exact k
      · right
        rw [List.append_assoc] at k
        exact k
    | some d =>
      simp only []
      by_cases hgt : 7200 < d
      · right
        rw [if_pos hgt]
        have key := terminalWrite_transitions timerFires jid .FAILED
          (some (some (tooLongMsg (toString (jsRoundDiv60 d)))))
          ⟨(jobSetStatus st0 jid .RUNNING none).db,
           (jobSetStatus st0 jid .RUNNING none).tr ++ [Ev.metadataCall url]⟩
          { j with status := .RUNNING, errorMessage := j.errorMessage } hj1
        simp only [] at key
        rw [htr1b] at key
        rw [List.append_assoc] at key
        exact key
      · rw [if_neg hgt]
        have key := pipelineStep2T_transitions timerFires env jid url exv md
          ⟨(jobSetStatus st0 jid .RUNNING none).db,
           (jobSetStatus st0 jid .RUNNING none).tr ++ [Ev.metadataCall url]⟩
          { j with status := .RUNNING, errorMessage := j.errorMessage } hj1
        simp only [] at key
        rw [htr1b] at key
        rcases key with k | k
        · left
          rw [List.append_assoc] at k
          exact k
        · right
          rw [List.append_assoc] at k
          exact k

/-- Membership form of `runPipelineTimed_transitions` for a PENDING row:
every write is a machine transition or a from-FAILED terminal write. -/
theorem runPipelineTimed_transitions_mem (env : PipeEnv) (timerFires : Bool)
    (jid url : String) (exv : Option VideoRow) (st0 : PSt) (j : JobRow)
    (hj : st0.db.findJob jid = some j) (hjs : j.status = .PENDING)
    (hbase : ∀ p ∈ transitionsOf st0.tr,
      p.2 = JobStatus.PENDING ∨ specTransition p = true ∨
        (p.1 = JobStatus.FAILED ∧
          (p.2 = JobStatus.COMPLETED ∨ p.2 = JobStatus.FAILED))) :
    ∀ p ∈ transitionsOf (runPipelineTimed env timerFires jid url exv st0).tr,
      p.2 = JobStatus.PENDING ∨ specTransition p = true ∨
        (p.1 = JobStatus.FAILED ∧
          (p.2 = JobStatus.COMPLETED ∨ p.2 = JobStatus.FAILED)) := by
  have hsuffix : ∀ stat : JobStatus, stat = JobStatus.COMPLETED ∨ stat = JobStatus.FAILED →
      ∀ p ∈ ((j.status, JobStatus.RUNNING) :: terminalPairs timerFires .RUNNING stat),
      p.2 = JobStatus.PENDING ∨ specTransition p = true ∨
        (p.1 = JobStatus.FAILED ∧
          (p.2 = JobStatus.COMPLETED ∨ p.2 = JobStatus.FAILED)) := by
    intro stat hstat p hp
    rcases List.mem_cons.1 hp with h | h
    · right
      left
      rw [h, hjs]
      rfl
    · unfold terminalPairs at h
      cases timerFires with
      | false =>
        simp at h
        right
        left
        rw [h]
        rcases hstat with hs | hs
        · rw [hs]
          rfl
        · rw [hs]
          rfl
      | true =>
        simp at h
        rcases h with h | h
        · right
          left
          rw [h]
          rfl
        · right
          right
          rw [h]
          rcases hstat with hs | hs
          · rw [hs]
            exact ⟨rfl, Or.inl rfl⟩
          · rw [hs]
            exact ⟨rfl, Or.inr rfl⟩
  intro p hp
  rcases runPipelineTimed_transitions env timerFires jid url exv st0 j hj with k | k
  · rw [k] at hp
    rcases List.mem_append.1 hp with h | h
    · exact hbase p h
    · exact hsuffix JobStatus.COMPLETED (Or.inl rfl) p h
  · rw [k] at hp
    rcases List.mem_append.1 hp with h | h
    · exact hbase p h
    · exact hsuffix JobStatus.FAILED (Or.inr rfl) p h

/-- Transitions recorded past the submit dedup checks, timed variant. -/
theorem submitProceedT_transitions (env : SubmitEnv) (timerFires : Bool)
    (url : String) (db : DB) (jobId : String) :
    ∀ p ∈ transitionsOf (submitProceedT env timerFires url db jobId).st.tr,
      p.2 = JobStatus.PENDING ∨ specTransition p = true ∨
        (p.1 = JobStatus.FAILED ∧
          (p.2 = JobStatus.COMPLETED ∨ p.2 = JobStatus.FAILED)) := by
  unfold submitProceedT
  simp only []
  cases hj : db.findJob jobId with
  | some j =>
    simp only []
    refine runPipelineTimed_transitions_mem env.pipe timerFires jobId url _ _
      { j with status := .PENDING, videoUrl := url, errorMessage := none } ?_ rfl ?_
    · have h1 : db.findJob jobId = some j := hj
      have h2 := findJob_setJob db jobId
        { j with status := .PENDING, videoUrl := url, errorMessage := none }
      rw [h1] at h2
      exact h2
    · intro p hp
      left
      simp [transitionsOf] at hp
      rw [hp]
  | none =>
    simp only []
    refine runPipelineTimed_transitions_mem env.pipe timerFires jobId url _ _
      ⟨.PENDING, url, none⟩ ?_ rfl ?_
    · exact findJob_insertJob db jobId ⟨.PENDING, url, none⟩ hj
    · intro p hp
      simp [transitionsOf] at hp

/-- Every transition recorded by the timed submit endpoint is a reset to
PENDING, a machine transition, or a from-FAILED terminal write. -/
theorem submitPOSTT_transitions (env : SubmitEnv) (timerFires : Bool)
    (url : String) (db : DB) :
    ∀ p ∈ transitionsOf (submitPOSTT env timerFires url db).st.tr,
      p.2 = JobStatus.PENDING ∨ specTransition p = true ∨
        (p.1 = JobStatus.FAILED ∧
          (p.2 = JobStatus.COMPLETED ∨ p.2 = JobStatus.FAILED)) := by
  intro p hp
  unfold submitPOSTT at hp
  by_cases hv : ¬ (jsIncludes url ("youtube.com") || jsIncludes url ("youtu.be")) = true
  · rw [if_pos hv] at hp
    simp [transitionsOf] at hp
  · rw [if_neg hv] at hp
    by_cases hk : ¬ env.apiKeyPresent = true
    · rw [if_pos hk] at hp
      simp [transitionsOf] at hp
    · rw [if_neg hk] at hp
      simp only [] at hp
      cases hj : db.findJob (generateJobId env.uuid url) with
      | none =>
        rw [hj] at hp
        simp only [] at hp
        exact submitProceedT_transitions env timerFires url db
          (generateJobId env.uuid url) p hp
      | some j =>
        rw [hj] at hp
        simp only [] at hp
        by_cases h1 : j.status = .COMPLETED ∧
            (db.findAnalysisByJob (generateJobId env.uuid url)).isSome = true
        · rw [if_pos h1] at hp
          simp [transitionsOf] at hp
        · rw [if_neg h1] at hp
          by_cases h2 : j.status = .PENDING ∨ j.status = .RUNNING
          · rw [if_pos h2] at hp
            simp [transitionsOf] at hp
          · rw [if_neg h2] at hp
            exact submitProceedT_transitions env timerFires url db
              (generateJobId env.uuid url) p hp

/-- C4 (amended): per-endpoint status-write shapes, with the submit route's
detached 4.5-minute timeout handler included (`timerFires` says whether the
armed timer fired before being cleared).  Every submit-endpoint write is a
reset of an existing row to PENDING (re-submission of a FAILED or
analysis-less COMPLETED job), a transition of the claimed machine
PENDING→RUNNING→\x7bCOMPLETED, FAILED\x7d (the timer's own write is
RUNNING→FAILED), or a from-FAILED terminal write — FAILED→COMPLETED when the
timer fired mid-run and the run later completed, FAILED→FAILED when the run
then failed or the never-cleared timer fires after the duration
short-circuit.  Every retry-endpoint write goes to RUNNING or COMPLETED
(including the COMPLETED→RUNNING start and the catch's restore-to-COMPLETED,
both outside the claimed machine).  Every health-endpoint write force-fails
a row that was PENDING or RUNNING (PENDING→FAILED being outside the claimed
machine). -/
theorem job_status_transitions (senv : SubmitEnv) (timerFires : Bool)
    (surl : String) (db1 : DB)
    (renv : RetryEnv) (jobId : Option String) (db2 : DB)
    (action : String) (jobIds : Option (List String)) (db3 : DB) :
    (∀ p ∈ transitionsOf (submitPOSTT senv timerFires surl db1).st.tr,
      p.2 = JobStatus.PENDING ∨ specTransition p = true ∨
        (p.1 = JobStatus.FAILED ∧
          (p.2 = JobStatus.COMPLETED ∨ p.2 = JobStatus.FAILED))) ∧
    (∀ p ∈ transitionsOf (retryPOST renv jobId db2).tr,
      p.2 = JobStatus.RUNNING ∨ p.2 = JobStatus.COMPLETED) ∧
    (∀ p ∈ transitionsOf (healthPOST action jobIds db3).tr,
      (p.1 = JobStatus.PENDING ∨ p.1 = JobStatus.RUNNING) ∧
        p.2 = JobStatus.FAILED) :=
  ⟨submitPOSTT_transitions senv timerFires surl db1,
   retryPOST_transitions renv jobId db2,
   healthPOST_transitions action jobIds db3⟩

/-- C4 witness: the amended theorem applied at a concrete timed submit run
whose trace contains the timer-induced FAILED→COMPLETED write. -/
theorem job_status_transitions_witness :
    ((JobStatus.FAILED, JobStatus.COMPLETED) ∈
      transitionsOf (submitPOSTT ⟨true, "u", exEnv⟩ true ("https://youtu.be/vid1")
        ⟨[], [], [], [], [], 0⟩).st.tr) ∧
    ((JobStatus.FAILED, JobStatus.COMPLETED).2 = JobStatus.PENDING ∨
      specTransition (JobStatus.FAILED, JobStatus.COMPLETED) = true ∨
      ((JobStatus.FAILED, JobStatus.COMPLETED).1 = JobStatus.FAILED ∧
        ((JobStatus.FAILED, JobStatus.COMPLETED).2 = JobStatus.COMPLETED ∨
         (JobStatus.FAILED, JobStatus.COMPLETED).2 = JobStatus.FAILED))) :=
  ⟨by decide,
   (job_status_transitions ⟨true, "u", exEnv⟩ true ("https://youtu.be/vid1")
      ⟨[], [], [], [], [], 0⟩ exRetryEnvNoClaims (some ("vid1")) exDbDone
      ("mark_failed") (some [("vid1")]) exDb0).1
    (JobStatus.FAILED, JobStatus.COMPLETED) (by decide)⟩

example :
    runPipelineTimed exEnv false ("vid1") ("https://youtu.be/vid1") none ⟨exDb0, []⟩ =
      runPipeline exEnv ("vid1") ("https://youtu.be/vid1") none ⟨exDb0, []⟩ := by decide

example :
    transitionsOf (runPipelineTimed exEnv true ("vid1") ("https://youtu.be/vid1") none
      ⟨exDb0, []⟩).tr =
      [(.PENDING, .RUNNING), (.RUNNING, .FAILED), (.FAILED, .COMPLETED)] := by decide

example :
    transitionsOf (runPipelineTimed exEnvAFail true ("vid1") ("https://youtu.be/vid1") none
      ⟨exDb0, []⟩).tr =
      [(.PENDING, .RUNNING), (.RUNNING, .FAILED), (.FAILED, .FAILED)] := by decide

example :
    ((runPipelineTimed exEnv true ("vid1") ("https://youtu.be/vid1") none
      ⟨exDb0, []⟩).db.findJob ("vid1")).map (fun j => j.status) =
      some .COMPLETED := by decide
